import Mathlib

/-!
# Verification of the Solvency / MoneyMapper demo-data seeding script

A shallow embedding of `scripts/seed-db.py` (the synthetic financial-data
generator) together with proofs and refutations of the specification's claims
about it.

Modelling conventions:

* Python `int` arithmetic is `ℤ`/`ℕ`; Python `float` draws and float
  arithmetic are idealized as exact rationals `ℚ`; `int(x)` on a float is
  truncation toward zero (`pyInt`).
* `random.random()` is an arbitrary rational clamped into `[0,1)`-style range
  `[0,1]`; `random.uniform(a,b)` is `a + (b-a) * clamp01 u` for an arbitrary
  rational `u`; `random.randint(a,b)` is `a + raw % (b-a+1)` for an arbitrary
  natural `raw`; `random.choice(l)` is `l.getD (raw % l.length) default`.
  Every reachable outcome of the Python primitives is reachable in the model
  and vice versa, so universally quantified theorems over the draw oracles
  cover all runs, and concrete oracles denote realizable runs.
* `datetime.date` is a year/month/day record ordered lexicographically
  (exactly Python's ordering); `date ± timedelta(days=n)` goes through
  proleptic-Gregorian day-number conversion (`daysFromCivil`/`civilFromDays`,
  the standard civil-calendar algorithms).  `date.replace` edits fields, as in
  Python.  Python raises `ValueError` when a `replace` produces an invalid
  date; the model is total and simply carries the denormalized triple, which
  only enlarges the set of modelled behaviours.
* The SQLite store is a record of row lists; `INSERT OR IGNORE ... (name, ...)`
  against a unique-name key is modelled from the spec (the schema with its
  unique constraints lives in the main application, outside this repository):
  insert-if-absent keyed on the name column.
-/

/-- Truncation toward zero of a rational, Python's `int(float)`. -/
def pyInt (q : ℚ) : ℤ :=
  if 0 ≤ q then ⌊q⌋ else ⌈q⌉

/-- Clamp a rational into `[lo, hi]`.  Used to model bounded random draws:
`random.uniform(lo, hi)` always lands in `[lo, hi]`, and quantifying over an
arbitrary rational clamped into the interval covers exactly those outcomes. -/
def clampQ (lo hi x : ℚ) : ℚ :=
  max lo (min hi x)

/-- Model of `random.random()`: an arbitrary draw clamped into `[0,1]`. -/
def unit01 (x : ℚ) : ℚ :=
  clampQ 0 1 x

/-- Model of `random.randint(a, b)` (inclusive bounds) over naturals. -/
def pyRandintN (a b : ℕ) (raw : ℕ) : ℕ :=
  a + raw % (b - a + 1)

/-- Model of `random.choice` on a nonempty list: an arbitrary index reduced
modulo the length. -/
def pyChoice (l : List α) (dflt : α) (raw : ℕ) : α :=
  l.getD (raw % l.length) dflt

/-- Model of `random.uniform(lo, hi)`. -/
def pyUniform (lo hi : ℚ) (u : ℚ) : ℚ :=
  lo + (hi - lo) * unit01 u

/-! ## Calendar dates

`datetime.date` objects store a (year, month, day) triple and compare
lexicographically.  Day arithmetic (`timedelta`) uses the standard civil
calendar / day-number conversion. -/

/-- A `datetime.date`: a (year, month, day) triple. -/
structure Date where
  y : ℤ
  m : ℤ
  d : ℤ
deriving DecidableEq, Repr

/-- Python's ordering on dates: lexicographic on (year, month, day). -/
def dateLe (a b : Date) : Bool :=
  a.y < b.y || (a.y = b.y && (a.m < b.m || (a.m = b.m && a.d ≤ b.d)))

/-- Day number of a civil date (days since 1970-01-01, proleptic Gregorian);
the standard `days_from_civil` algorithm. -/
def daysFromCivil (dt : Date) : ℤ :=
  let y := dt.y - (if dt.m ≤ 2 then 1 else 0)
  let era := Int.fdiv y 400
  let yoe := y - era * 400
  let doy := Int.fdiv (153 * (dt.m + (if 2 < dt.m then -3 else 9)) + 2) 5 + dt.d - 1
  let doe := yoe * 365 + Int.fdiv yoe 4 - Int.fdiv yoe 100 + doy
  era * 146097 + doe - 719468

/-- Civil date of a day number; the standard `civil_from_days` algorithm,
inverse of `daysFromCivil` on valid dates. -/
def civilFromDays (z0 : ℤ) : Date :=
  let z := z0 + 719468
  let era := Int.fdiv z 146097
  let doe := z - era * 146097
  let yoe := Int.fdiv (doe - Int.fdiv doe 1460 + Int.fdiv doe 36524 - Int.fdiv doe 146096) 365
  let y := yoe + era * 400
  let doy := doe - (365 * yoe + Int.fdiv yoe 4 - Int.fdiv yoe 100)
  let mp := Int.fdiv (5 * doy + 2) 153
  let d := doy - Int.fdiv (153 * mp + 2) 5 + 1
  let m := mp + (if mp < 10 then 3 else -9)
  ⟨y + (if m ≤ 2 then 1 else 0), m, d⟩

/-- `date + timedelta(days = n)`. -/
def addDays (t : Date) (n : ℤ) : Date :=
  civilFromDays (daysFromCivil t + n)

/-- `date - timedelta(days = n)`. -/
def subDays (t : Date) (n : ℤ) : Date :=
  civilFromDays (daysFromCivil t - n)

/-- A date triple is valid (a genuine calendar date) exactly when it is fixed
by the day-number round trip; every `datetime.date` Python can construct
satisfies this. -/
def Date.Valid (t : Date) : Prop :=
  civilFromDays (daysFromCivil t) = t

instance (t : Date) : Decidable t.Valid := by
  unfold Date.Valid; infer_instance

/-- `date.replace(day = 15)`. -/
def replaceDay15 (t : Date) : Date :=
  ⟨t.y, t.m, 15⟩

/-- The month-advance idiom used by every monthly loop in the script:
`replace(year = y+1, month = 1)` after December, else `replace(month = m+1)`. -/
def nextMonthD (t : Date) : Date :=
  if t.m = 12 then ⟨t.y + 1, 1, t.d⟩ else ⟨t.y, t.m + 1, t.d⟩

theorem date_sanity_epoch : daysFromCivil ⟨1970, 1, 1⟩ = 0 := by decide

theorem date_sanity_roundtrip : (Date.mk 2026 10 12).Valid := by decide

/-! ## The relational store and the fixed catalogs -/

/-- A row of the `tags` table. -/
structure TagRow where
  id : ℕ
  name : String
  color : String
  style : String
deriving DecidableEq, Repr

/-- A row of the `accounts` table. -/
structure AccountRow where
  id : ℕ
  name : String
  accountType : String
deriving DecidableEq, Repr

/-- A row of the `rules` table (the columns the script inserts). -/
structure RuleRow where
  name : String
  pattern : String
  actionType : String
  actionValue : String
deriving DecidableEq, Repr

/-- A row of the `categories` table (pre-existing, never created by the
script). -/
structure CategoryRow where
  id : ℕ
  name : String
deriving DecidableEq, Repr

/-- The slice of the SQLite store the catalog seeders touch. -/
structure Store where
  categories : List CategoryRow
  tags : List TagRow
  rules : List RuleRow
  accounts : List AccountRow
deriving DecidableEq, Repr

/-- `get_category_map(conn)` followed by `.get(name)`: name-to-id lookup. -/
def get_category_map (s : Store) (n : String) : Option ℕ :=
  (s.categories.find? (fun r => r.name = n)).map (·.id)

/-- `get_tag_map(conn)` followed by `.get(name)`. -/
def get_tag_map (s : Store) (n : String) : Option ℕ :=
  (s.tags.find? (fun r => r.name = n)).map (·.id)

/-- `get_account_map(conn)` followed by `.get(name)`. -/
def get_account_map (s : Store) (n : String) : Option ℕ :=
  (s.accounts.find? (fun r => r.name = n)).map (·.id)

/-- The hard-coded `TAGS` catalog: (name, color, style). -/
def TAGS : List (String × String × String) :=
  [("recurring", "#8b5cf6", "solid"),
   ("essential", "#ef4444", "solid"),
   ("discretionary", "#10b981", "outline"),
   ("tax-deductible", "#3b82f6", "solid"),
   ("reimbursable", "#f59e0b", "outline"),
   ("subscription", "#ec4899", "striped"),
   ("one-time", "#6b7280", "outline"),
   ("emergency", "#dc2626", "solid"),
   ("planned", "#059669", "solid"),
   ("impulse", "#f97316", "striped"),
   ("gift", "#d946ef", "solid"),
   ("work-related", "#0891b2", "solid")]

/-- The hard-coded `RULES` catalog: (name, pattern, action_type,
action_value as an unresolved name). -/
def RULES : List (String × String × String × String) :=
  [("Starbucks to Coffee", "(?i)starbucks", "assign_category", "Coffee & Snacks"),
   ("Gas Stations", "(?i)(shell|chevron|exxon|bp|76).*gas", "assign_category", "Gas"),
   ("Uber/Lyft Rides", "(?i)(uber|lyft)", "assign_category", "Public Transit"),
   ("Streaming Services", "(?i)(netflix|spotify|disney|hbo|hulu)", "assign_tag", "subscription"),
   ("Amazon Orders", "(?i)amazon", "assign_category", "Shopping"),
   ("Grocery Stores", "(?i)(whole foods|trader joe|safeway|kroger|aldi)", "assign_category", "Groceries"),
   ("Pharmacy", "(?i)(cvs|walgreens|rite aid)", "assign_category", "Healthcare"),
   ("Fast Food", "(?i)(mcdonald|taco bell|wendy|burger king)", "assign_category", "Restaurants")]

/-- The hard-coded `ACCOUNTS` catalog: (name, account_type). -/
def ACCOUNTS : List (String × String) :=
  [("Primary Checking", "Cash"),
   ("Savings Account", "Cash"),
   ("Credit Card", "Cash"),
   ("Brokerage Account", "Securities"),
   ("Roth IRA", "Securities")]

/-- Fresh autoincrement id for the tags table. -/
def freshTagId (s : Store) : ℕ :=
  s.tags.foldl (fun m r => max m r.id) 0 + 1

/-- Fresh autoincrement id for the accounts table. -/
def freshAccountId (s : Store) : ℕ :=
  s.accounts.foldl (fun m r => max m r.id) 0 + 1

/-- Modelled from the spec: `INSERT OR IGNORE INTO tags (name, color, style)`.
The unique key on `tags.name` is part of the application schema, which lives
outside this repository; the spec states tag names are unique, so the insert
is a no-op exactly when a row with the same name exists. -/
def insertTagIfAbsent (s : Store) (n c st : String) : Store :=
  if s.tags.any (fun r => r.name = n) then s
  else { s with tags := s.tags ++ [⟨freshTagId s, n, c, st⟩] }

/-- Modelled from the spec: `INSERT OR IGNORE INTO accounts (name,
account_type)`, keyed on the unique `accounts.name` (schema outside this
repository, uniqueness per the spec). -/
def insertAccountIfAbsent (s : Store) (n ty : String) : Store :=
  if s.accounts.any (fun r => r.name = n) then s
  else { s with accounts := s.accounts ++ [⟨freshAccountId s, n, ty⟩] }

/-- `seed_tags(conn)`. -/
def seed_tags (s : Store) : Store :=
  TAGS.foldl (fun acc t => insertTagIfAbsent acc t.1 t.2.1 t.2.2) s

/-- `seed_accounts(conn)`. -/
def seed_accounts (s : Store) : Store :=
  ACCOUNTS.foldl (fun acc a => insertAccountIfAbsent acc a.1 a.2) s

/-- Resolution of one catalog rule against the store maps: `action_value` is
looked up in the category map (for `assign_category`) or the tag map
(otherwise) and the id rendered with `str`; a failed lookup renders
`str("")`, which is falsy, so the rule produces no row. -/
def ruleResolve (s : Store) (r : String × String × String × String) :
    Option RuleRow :=
  (if r.2.2.1 = "assign_category" then get_category_map s r.2.2.2
   else get_tag_map s r.2.2.2).map
    (fun v => ⟨r.1, r.2.1, r.2.2.1, toString v⟩)

/-- One step of `seed_rules`: a plain `INSERT` of the resolved rule when the
rendered action value is truthy.  The maps are the entry snapshot `s`, as in
the script. -/
def seedRuleStep (s : Store) (acc : Store)
    (r : String × String × String × String) : Store :=
  match ruleResolve s r with
  | none => acc
  | some row => { acc with rules := acc.rules ++ [row] }

/-- `seed_rules(conn)`: note the insert is a plain `INSERT`, with no
`OR IGNORE`. -/
def seed_rules (s : Store) : Store :=
  RULES.foldl (seedRuleStep s) s

/-- The rule rows one call to `seed_rules` appends: every catalog rule whose
action target resolves in the store. -/
def resolvedRules (s : Store) : List RuleRow :=
  RULES.filterMap (ruleResolve s)

/-- The catalog-seeding sequence `main` runs: accounts, then tags, then
rules. -/
def seedCatalogs (s : Store) : Store :=
  seed_rules (seed_tags (seed_accounts s))

/-! ## The command-line entry point's store-location guard -/

/-- Outcome of running `main` as far as the claims observe it. -/
structure CliOutcome where
  errorShown : Bool
  storeMutated : Bool
  exitCode : ℕ
deriving DecidableEq, Repr

/-- Embeds `main()`'s handling of the positional store path.  When
`Path(args.database).exists()` is false the script prints two error lines and
executes a plain `return` from `main`; the interpreter then falls off the end
of the script and exits normally, so the process exit status is 0 and no
store connection was ever opened.  When the path exists the script opens the
store and runs the seeders (observed here only as a mutation). -/
def mainOutcome (storeExists : Bool) : CliOutcome :=
  if storeExists then ⟨false, true, 0⟩ else ⟨true, false, 0⟩

/-! ## Salary schedule (`generate_salary_schedule`) -/

/-- `SALARY_CONFIG["base_annual_salary"]`: $85,000 in cents. -/
def baseAnnualSalary : ℤ := 8500000

/-- The random draws one iteration of the salary loop may consume. -/
structure SalaryDraw where
  raiseU : ℚ
  dedRoll : ℚ
  dedU : ℚ
  bonusU : ℚ
  bonusDelayRaw : ℕ
deriving Repr

/-- One monthly salary event, instrumented: `base` is the running
`current_monthly` after the yearly-raise step of this iteration (a ghost
field, projected away to recover the script's output), `isBonus` marks the
extra bonus rows. -/
structure SalEntry where
  date : Date
  amount : ℤ
  desc : String
  base : ℤ
  isBonus : Bool
deriving DecidableEq, Repr

/-- The `while current_date <= end_date` loop of `generate_salary_schedule`,
with explicit fuel (the script's loop always terminates because the month
strictly advances; every theorem below holds for every fuel).  State:
iteration index `i` into the draw oracle, `cur` = `current_date`,
`curYear` = `current_year`, `monthly` = `current_monthly`. -/
def salaryLoopG (draws : ℕ → SalaryDraw) (endD : Date) :
    ℕ → ℕ → Date → ℤ → ℤ → List SalEntry
  | 0, _, _, _, _ => []
  | fuel + 1, i, cur, curYear, monthly =>
    if dateLe cur endD then
      let dr := draws i
      let monthly' :=
        if curYear < cur.y then pyInt (monthly * (1 + pyUniform 2 5 dr.raiseU / 100))
        else monthly
      let curYear' := if curYear < cur.y then cur.y else curYear
      let ded := unit01 dr.dedRoll < 1 / 10
      let amount :=
        if ded then pyInt (monthly' * (1 - pyUniform 1 5 dr.dedU / 100)) else monthly'
      let desc :=
        if ded then "Salary Deposit (after deductions)" else "Salary Deposit"
      let bonus :=
        if cur.m = 3 ∨ cur.m = 12 then pyInt (monthly' * pyUniform 5 20 dr.bonusU / 100)
        else 0
      let bonusRows :=
        if 0 < bonus then
          [⟨addDays cur (1 + dr.bonusDelayRaw % 5), bonus,
            if cur.m = 3 then "Performance Bonus" else "Year-End Bonus",
            monthly', true⟩]
        else []
      ⟨cur, amount, desc, monthly', false⟩ :: bonusRows
        ++ salaryLoopG draws endD fuel (i + 1) (nextMonthD cur) curYear' monthly'
    else []

/-- The instrumented whole-schedule generator: start on the 15th of the start
month, tracked year initialized to the start year, monthly base
`base_annual_salary // 12`. -/
def salaryScheduleG (start endD : Date) (fuel : ℕ) (draws : ℕ → SalaryDraw) :
    List SalEntry :=
  salaryLoopG draws endD fuel 0 (replaceDay15 start) start.y (Int.fdiv baseAnnualSalary 12)

/-- `generate_salary_schedule(start_date, end_date)`: the script's
(date, amount_cents, description) triples, i.e. the instrumented entries with
the ghost fields projected away. -/
def generate_salary_schedule (start endD : Date) (fuel : ℕ)
    (draws : ℕ → SalaryDraw) : List (Date × ℤ × String) :=
  (salaryScheduleG start endD fuel draws).map (fun e => (e.date, e.amount, e.desc))

/-! ## Expense generation (`seed_expenses`) -/

/-- The hard-coded `EXPENSE_TEMPLATES` catalog: category name to a list of
(description, min_cents, max_cents) templates. -/
def EXPENSE_TEMPLATES : List (String × List (String × ℕ × ℕ)) :=
  [("Groceries",
    [("Whole Foods Market", 4500, 15000),
     ("Trader Joe's", 3000, 8000),
     ("Safeway", 2500, 12000),
     ("Costco", 8000, 25000),
     ("Target - Groceries", 2000, 6000),
     ("Walmart Grocery", 3000, 10000),
     ("Kroger", 2500, 9000),
     ("Aldi", 2000, 5000),
     ("Sprouts Farmers Market", 3500, 8000),
     ("Local Farmers Market", 1500, 4000)]),
   ("Restaurants",
    [("Chipotle Mexican Grill", 1200, 2500),
     ("Olive Garden", 2500, 6000),
     ("Chili's", 2000, 5000),
     ("Panera Bread", 1000, 2000),
     ("Subway", 800, 1500),
     ("McDonald's", 600, 1500),
     ("Thai Palace Restaurant", 1500, 3500),
     ("Sushi House", 2000, 5000),
     ("Italian Bistro", 3000, 7000),
     ("Local Diner", 1200, 2500),
     ("Pizza Hut", 1500, 3500),
     ("Taco Bell", 500, 1200),
     ("Five Guys", 1200, 2000),
     ("Cheesecake Factory", 3000, 7000)]),
   ("Coffee & Snacks",
    [("Starbucks", 450, 800),
     ("Dunkin'", 300, 600),
     ("Peet's Coffee", 400, 700),
     ("Local Coffee Shop", 350, 650),
     ("7-Eleven", 200, 800),
     ("Vending Machine", 150, 300)]),
   ("Gas",
    [("Shell Gas Station", 3500, 7000),
     ("Chevron", 3000, 6500),
     ("Exxon", 3200, 6800),
     ("BP Gas Station", 3000, 6000),
     ("Costco Gas", 2800, 5500),
     ("76 Gas Station", 3100, 6200)]),
   ("Public Transit",
    [("Metro Card Reload", 2000, 10000),
     ("Bus Fare", 250, 500),
     ("Uber", 800, 3500),
     ("Lyft", 750, 3200),
     ("Train Ticket", 500, 2500),
     ("Airport Shuttle", 1500, 3000)]),
   ("Parking",
    [("Downtown Parking Garage", 1000, 3000),
     ("Airport Parking", 2000, 8000),
     ("Street Parking Meter", 200, 800),
     ("Event Parking", 1500, 4000),
     ("Monthly Parking Pass", 10000, 25000)]),
   ("Rent/Mortgage",
    [("Monthly Rent Payment", 120000, 250000),
     ("Mortgage Payment", 150000, 350000)]),
   ("Maintenance",
    [("Plumber - Leak Repair", 15000, 40000),
     ("Electrician Service", 10000, 30000),
     ("HVAC Maintenance", 8000, 20000),
     ("Lawn Care Service", 5000, 15000),
     ("House Cleaning Service", 8000, 20000),
     ("Handyman Services", 5000, 15000),
     ("Pest Control", 10000, 25000)]),
   ("Insurance",
    [("Renters Insurance", 2000, 5000),
     ("Home Insurance Premium", 8000, 20000)]),
   ("Utilities",
    [("Electric Bill - Power Co", 8000, 20000),
     ("Gas Bill - Utility Co", 4000, 12000),
     ("Water & Sewer Bill", 3000, 8000),
     ("Internet - Comcast", 5000, 10000),
     ("Phone Bill - Verizon", 4000, 12000),
     ("Trash Collection", 2000, 5000)]),
   ("Entertainment",
    [("Netflix Subscription", 1599, 2299),
     ("Spotify Premium", 999, 1599),
     ("Movie Theater", 1200, 3500),
     ("Concert Tickets", 5000, 20000),
     ("Bowling Alley", 2000, 5000),
     ("Mini Golf", 1500, 3000),
     ("Escape Room", 2500, 4000),
     ("Museum Admission", 1500, 3000),
     ("Disney+ Subscription", 799, 1399),
     ("HBO Max", 1599, 1599),
     ("Video Game Purchase", 2000, 7000),
     ("Steam Game Sale", 500, 3000),
     ("Book Purchase", 1000, 2500)]),
   ("Shopping",
    [("Amazon.com", 1500, 15000),
     ("Target", 2000, 10000),
     ("Walmart", 1500, 8000),
     ("Best Buy - Electronics", 5000, 50000),
     ("IKEA", 5000, 30000),
     ("Home Depot", 3000, 20000),
     ("Macy's", 4000, 15000),
     ("Nordstrom", 5000, 25000),
     ("Old Navy", 2000, 8000),
     ("Nike Store", 5000, 15000),
     ("Apple Store", 10000, 150000),
     ("Bed Bath & Beyond", 3000, 10000),
     ("Etsy", 2000, 8000)]),
   ("Healthcare",
    [("CVS Pharmacy", 1000, 5000),
     ("Walgreens", 800, 4000),
     ("Doctor Visit Copay", 2000, 5000),
     ("Dentist - Checkup", 5000, 15000),
     ("Eye Exam", 5000, 15000),
     ("Prescription Medication", 1000, 10000),
     ("Urgent Care Visit", 5000, 15000),
     ("Lab Work", 2000, 10000),
     ("Physical Therapy", 3000, 10000)]),
   ("Other",
    [("ATM Withdrawal", 2000, 20000),
     ("Bank Fee", 500, 3500),
     ("Gift - Birthday", 2000, 10000),
     ("Charity Donation", 2000, 20000),
     ("Pet Supplies - PetSmart", 2000, 8000),
     ("Vet Visit", 5000, 30000),
     ("Dry Cleaning", 1500, 4000),
     ("Haircut", 2000, 6000),
     ("Gym Membership", 2500, 6000),
     ("Office Supplies", 1000, 5000)])]

/-- The `category_weights` dictionary, in source order. -/
def categoryWeights : List (String × ℕ) :=
  [("Groceries", 15), ("Restaurants", 12), ("Coffee & Snacks", 20), ("Gas", 8),
   ("Public Transit", 10), ("Parking", 5), ("Rent/Mortgage", 1),
   ("Maintenance", 2), ("Insurance", 1), ("Utilities", 2),
   ("Entertainment", 8), ("Shopping", 10), ("Healthcare", 3), ("Other", 5)]

/-- The flattened `weighted_categories` multiset: each name repeated by its
weight. -/
def weightedCategories : List String :=
  categoryWeights.flatMap (fun cw => List.replicate cw.2 cw.1)

/-- The fixed `note_templates` list. -/
def noteTemplates : List String :=
  ["Paid with credit card", "Split with roommate",
   "Business expense - need to submit", "Birthday celebration",
   "Weekly shopping", "Emergency purchase", "Sale item", "Used coupon"]

/-- The fixed `other_income` catalog: (description, min_cents, max_cents,
payer). -/
def OTHER_INCOME : List (String × ℕ × ℕ × String) :=
  [("Tax Refund", 30000, 150000, "IRS"),
   ("Cashback Reward", 1000, 5000, "Credit Card Co"),
   ("Reimbursement", 2000, 10000, "Company ABC"),
   ("Gift Received", 2500, 10000, "Family Member"),
   ("Sold Item", 1500, 8000, "eBay Buyer"),
   ("Freelance Payment", 20000, 80000, "Client LLC")]

/-- A row the script inserts into the `expenses` table. -/
structure ExpenseRecord where
  date : Date
  amountCents : ℤ
  currency : String
  description : String
  categoryId : Option ℕ
  accountId : Option ℕ
  notes : Option String
  payer : Option String
  payee : Option String
deriving DecidableEq, Repr

/-- Everything before the first `" - "` separator of a character list;
`description.split(" - ")[0]`. -/
def takeBeforeSep : List Char → List Char
  | [] => []
  | ' ' :: '-' :: ' ' :: _ => []
  | c :: rest => c :: takeBeforeSep rest

/-- `description.split(" - ")[0]`: the vendor part of a description. -/
def vendorOf (s : String) : String :=
  ⟨takeBeforeSep s.data⟩

/-- The store lookups and ambient inputs `seed_expenses` reads. -/
structure ExpenseCtx where
  categoryMap : String → Option ℕ
  accountMap : String → Option ℕ
  today : Date
  daysBack : ℕ

/-- The random draws one synthetic-expense iteration may consume. -/
structure ExpenseDraw where
  catRaw : ℕ
  tmplRaw : ℕ
  amtRaw : ℕ
  paretoRaw : ℕ
  acctRoll : ℚ
  noteRoll : ℚ
  noteRaw : ℕ
deriving Repr

/-- One iteration of the synthetic-expense loop.  The category is drawn from
the flattened weighted multiset; a category absent from `EXPENSE_TEMPLATES`
hits the `continue` (result `none`); otherwise a template, amount, date,
account, optional note and payee are derived and a record is produced.  The
category id is looked up in the store map and may be `none` without
suppressing the record.  `paretoRaw` models `int(random.paretovariate(1.5) *
30)` (any natural number ≥ 30 is realizable), reduced modulo the window. -/
def syntheticExpense (ctx : ExpenseCtx) (d : ExpenseDraw) : Option ExpenseRecord :=
  let categoryName := pyChoice weightedCategories "" d.catRaw
  match EXPENSE_TEMPLATES.find? (fun p => p.1 = categoryName) with
  | none => none
  | some p =>
    let t := pyChoice p.2 ("", 0, 0) d.tmplRaw
    let description := t.1
    let amountCents : ℕ := pyRandintN t.2.1 t.2.2 d.amtRaw
    let daysAgo : ℕ := d.paretoRaw % ctx.daysBack
    let expenseDate := subDays ctx.today daysAgo
    let categoryId := ctx.categoryMap categoryName
    let checkingId := ctx.accountMap "Primary Checking"
    let creditCardId := ctx.accountMap "Credit Card"
    let accountId :=
      if categoryName = "Rent/Mortgage" ∨ categoryName = "Utilities" ∨
          categoryName = "Insurance" then checkingId
      else if 50000 < amountCents then
        (if unit01 d.acctRoll < 7 / 10 then checkingId else creditCardId)
      else
        (if unit01 d.acctRoll < 4 / 5 then creditCardId else checkingId)
    let notes :=
      if unit01 d.noteRoll < 3 / 20 then some (pyChoice noteTemplates "" d.noteRaw)
      else none
    some ⟨expenseDate, -(amountCents : ℤ), "USD", description, categoryId,
          accountId, notes, none, some (vendorOf description)⟩

/-- The `for _ in range(num_expenses)` loop: the synthetic expense records, in
order, with `continue` iterations dropped. -/
def seedExpensesSynthetic (ctx : ExpenseCtx) (numExpenses : ℕ)
    (draws : ℕ → ExpenseDraw) : List ExpenseRecord :=
  (List.range numExpenses).filterMap (fun i => syntheticExpense ctx (draws i))

/-- How `seed_expenses` turns one salary-schedule triple into an expense row:
positive amount, no category, checking account, payer `"Employer Inc."`. -/
def salaryRecord (ctx : ExpenseCtx) (e : Date × ℤ × String) : ExpenseRecord :=
  ⟨e.1, e.2.1, "USD", e.2.2, none, ctx.accountMap "Primary Checking", none,
   some "Employer Inc.", none⟩

/-- The random draws one other-income iteration consumes. -/
structure OtherIncomeDraw where
  pickRaw : ℕ
  amtRaw : ℕ
  dayRaw : ℕ
deriving Repr

/-- One iteration of the other-income loop. -/
def otherIncomeRecord (ctx : ExpenseCtx) (d : OtherIncomeDraw) : ExpenseRecord :=
  let t := pyChoice OTHER_INCOME ("", 0, 0, "") d.pickRaw
  let amountCents : ℕ := pyRandintN t.2.1 t.2.2.1 d.amtRaw
  let daysAgo : ℕ := pyRandintN 0 ctx.daysBack d.dayRaw
  let incomeAccount :=
    if t.1 = "Tax Refund" then ctx.accountMap "Savings Account"
    else ctx.accountMap "Primary Checking"
  ⟨subDays ctx.today daysAgo, (amountCents : ℤ), "USD", t.1, none,
   incomeAccount, none, some t.2.2.2, none⟩

/-- The `num_other_income = days_back // 60` other-income loop. -/
def seedExpensesOtherIncome (ctx : ExpenseCtx) (draws : ℕ → OtherIncomeDraw) :
    List ExpenseRecord :=
  (List.range (ctx.daysBack / 60)).map (fun i => otherIncomeRecord ctx (draws i))

/-- All random draws `seed_expenses` consumes. -/
structure ExpenseOracle where
  expense : ℕ → ExpenseDraw
  salary : ℕ → SalaryDraw
  otherIncome : ℕ → OtherIncomeDraw

/-- `seed_expenses(conn, num_expenses, days_back)`: the full `expenses_data`
list handed to the bulk insert, in insertion order — synthetic expenses, then
the materialized salary schedule, then other income. -/
def seed_expenses (ctx : ExpenseCtx) (numExpenses : ℕ) (salaryFuel : ℕ)
    (o : ExpenseOracle) : List ExpenseRecord :=
  seedExpensesSynthetic ctx numExpenses o.expense
    ++ (generate_salary_schedule (subDays ctx.today ctx.daysBack) ctx.today
          salaryFuel o.salary).map (salaryRecord ctx)
    ++ seedExpensesOtherIncome ctx o.otherIncome

/-! ## Trading activities (`seed_trading_activities`) -/

/-- An entry of the hard-coded `TRADING_SYMBOLS` catalog. -/
structure SymbolInfo where
  sym : String
  name : String
  basePrice : ℤ
  volatility : ℤ
deriving DecidableEq, Repr

/-- The hard-coded `TRADING_SYMBOLS` catalog: (symbol, name,
typical_price_cents, volatility_percent). -/
def TRADING_SYMBOLS : List SymbolInfo :=
  [⟨"AAPL", "Apple Inc.", 17500, 15⟩,
   ⟨"MSFT", "Microsoft Corporation", 38000, 12⟩,
   ⟨"GOOGL", "Alphabet Inc.", 14000, 18⟩,
   ⟨"AMZN", "Amazon.com Inc.", 18500, 20⟩,
   ⟨"NVDA", "NVIDIA Corporation", 50000, 30⟩,
   ⟨"VTI", "Vanguard Total Stock Market ETF", 24000, 10⟩,
   ⟨"VOO", "Vanguard S&P 500 ETF", 45000, 10⟩,
   ⟨"BND", "Vanguard Total Bond Market ETF", 7500, 3⟩,
   ⟨"SCHD", "Schwab US Dividend Equity ETF", 7800, 8⟩,
   ⟨"QQQ", "Invesco QQQ Trust", 40000, 15⟩]

/-- The ETF subset a retirement-account trade is restricted to. -/
def iraEtfNames : List String := ["VTI", "VOO", "BND", "SCHD", "QQQ"]

/-- The dividend-paying symbols of the quarterly-dividend pass. -/
def DIVIDEND_SYMBOLS : List String := ["AAPL", "MSFT", "SCHD", "VTI", "VOO"]

/-- A row the script inserts into the `trading_activities` table.  `quantity`
is rational because cash deposits store `amount / 100` (a Python float). -/
structure Activity where
  date : Date
  symbol : String
  quantity : ℚ
  activityType : String
  unitPriceCents : ℤ
  currency : String
  feeCents : ℤ
  accountId : Option ℕ
  notes : String
deriving DecidableEq, Repr

/-- Key of the in-memory `positions` dictionary: (account_id, symbol). -/
abbrev PosKey := Option ℕ × String

/-- The in-memory `positions` dictionary, as a total map with the
`.get(key, 0)` default built in. -/
abbrev Positions := PosKey → ℤ

/-- `positions[key] = v`. -/
def updatePos (p : Positions) (k : PosKey) (v : ℤ) : Positions :=
  fun k' => if k' = k then v else p k'

/-- The ambient inputs of `seed_trading_activities`. -/
structure TradeCtx where
  today : Date
  daysBack : ℕ
  brokerageId : Option ℕ
  iraId : Option ℕ

/-- The fixed fee population `[0, 0, 0, 100, 495]`. -/
def feeChoices : List ℤ := [0, 0, 0, 100, 495]

/-- A cash DEPOSIT activity: reserved symbol, quantity `amount / 100`, unit
price 1.00, no fee. -/
def depositActivity (date : Date) (acct : Option ℕ) (amountCents : ℕ)
    (note : String) : Activity :=
  ⟨date, "$CASH-USD", (amountCents : ℚ) / 100, "DEPOSIT", 100, "USD", 0, acct, note⟩

/-- The random draws one buy/sell trade iteration may consume. -/
structure TradeDraw where
  dayRaw : ℕ
  acctRoll : ℚ
  symRaw : ℕ
  trendU : ℚ
  volU : ℚ
  buyRoll : ℚ
  buyQtyRaw : ℕ
  buyFeeRaw : ℕ
  sellQtyRaw : ℕ
  sellFeeRaw : ℕ
deriving Repr

/-- One iteration of the buy/sell trade loop: random date within the window,
account pick (80% brokerage), symbol pool restricted to ETFs for the
retirement account, trend/volatility price, then BUY if the tracked position
is below 5 shares or with 70% probability, otherwise SELL (guarded by a
positive tracked position) of 1 up to `min(position, 5)` shares.  Returns the
emitted activities (one or none) and the updated positions. -/
def tradeStep (ctx : TradeCtx) (positions : Positions) (d : TradeDraw) :
    List Activity × Positions :=
  let daysAgo : ℕ := pyRandintN 0 ctx.daysBack d.dayRaw
  let tradeDate := subDays ctx.today daysAgo
  let accountId := if unit01 d.acctRoll < 4 / 5 then ctx.brokerageId else ctx.iraId
  let symbolPool :=
    if accountId = ctx.iraId then TRADING_SYMBOLS.filter (fun s => iraEtfNames.contains s.sym)
    else TRADING_SYMBOLS
  let si := pyChoice symbolPool ⟨"", "", 0, 0⟩ d.symRaw
  let yearsAgo : ℚ := (daysAgo : ℚ) / 365
  let trendFactor : ℚ := 1 + yearsAgo * pyUniform (1 / 20) (3 / 20) d.trendU
  let volatilityFactor : ℚ :=
    1 + pyUniform (-(si.volatility : ℚ) / 100) ((si.volatility : ℚ) / 100) d.volU
  let priceCents := pyInt ((si.basePrice : ℚ) / trendFactor * volatilityFactor)
  let key : PosKey := (accountId, si.sym)
  let currentQty := positions key
  if currentQty < 5 ∨ unit01 d.buyRoll < 7 / 10 then
    let quantity : ℕ := pyRandintN 1 10 d.buyQtyRaw
    let fee := pyChoice feeChoices 0 d.buyFeeRaw
    ([⟨tradeDate, si.sym, (quantity : ℚ), "BUY", priceCents, "USD", fee, accountId,
       "Buy " ++ toString quantity ++ " shares of " ++ si.sym⟩],
     updatePos positions key (currentQty + quantity))
  else if 0 < currentQty then
    let sellQty : ℕ := pyRandintN 1 (min currentQty 5).toNat d.sellQtyRaw
    let fee := pyChoice feeChoices 0 d.sellFeeRaw
    ([⟨tradeDate, si.sym, (sellQty : ℚ), "SELL", priceCents, "USD", fee, accountId,
       "Sell " ++ toString sellQty ++ " shares of " ++ si.sym⟩],
     updatePos positions key (currentQty - sellQty))
  else
    ([], positions)

/-- The `for _ in range(num_trades)` loop, threading the positions
dictionary; `i` indexes the draw oracle.  Running it with a smaller count
yields exactly the state after that many generation steps of a longer run. -/
def tradesLoopAux (ctx : TradeCtx) (draws : ℕ → TradeDraw) :
    ℕ → ℕ → Positions → List Activity × Positions
  | 0, _, pos => ([], pos)
  | n + 1, i, pos =>
    let step := tradeStep ctx pos (draws i)
    let rest := tradesLoopAux ctx draws n (i + 1) step.2
    (step.1 ++ rest.1, rest.2)

/-- The random draws one monthly-contribution iteration may consume. -/
structure ContribDraw where
  contribRaw : ℕ
  iraRaw : ℕ
deriving Repr

/-- The monthly-contribution `while` loop (fuel-indexed; every theorem holds
for every fuel): one brokerage deposit per month, plus an annual IRA deposit
each January other than the very first month. -/
def contribLoop (ctx : TradeCtx) (startD : Date) (draws : ℕ → ContribDraw) :
    ℕ → ℕ → Date → List Activity
  | 0, _, _ => []
  | fuel + 1, i, cur =>
    if dateLe cur ctx.today then
      let dr := draws i
      depositActivity cur ctx.brokerageId (pyRandintN 50000 150000 dr.contribRaw)
          "Monthly investment contribution"
        :: (if cur.m = 1 ∧ cur ≠ startD then
              [depositActivity cur ctx.iraId (pyRandintN 600000 650000 dr.iraRaw)
                "Annual IRA contribution"]
            else [])
          ++ contribLoop ctx startD draws fuel (i + 1) (nextMonthD cur)
    else []

/-- Two-decimal dollar rendering of a (nonnegative) cent amount, as Python's
`f"{c / 100:.2f}"` renders the per-share dividend amounts in range. -/
def fmtCents (c : ℤ) : String :=
  let r := c % 100
  toString (c / 100) ++ "." ++ (if r < 10 then "0" ++ toString r else toString r)

/-- A quarterly DIVIDEND activity row. -/
def dividendActivity (date : Date) (sym : String) (qty : ℤ) (divPerShare : ℤ)
    (acct : Option ℕ) : Activity :=
  ⟨date, sym, (qty : ℚ), "DIVIDEND", divPerShare, "USD", 0, acct,
   "Quarterly dividend: " ++ toString qty ++ " shares × $" ++ fmtCents divPerShare⟩

/-- The quarterly-dividend `while` loop (fuel-indexed): in months 3, 6, 9 and
12, for each of the two accounts and each dividend symbol, emit a dividend
sized by the tracked position whenever that position is positive.  `positions`
is the final dictionary left by the trade loop and is never modified here.
The draw oracle is indexed by (month index, account index, symbol index). -/
def dividendLoop (ctx : TradeCtx) (positions : Positions)
    (draws : ℕ → ℕ → ℕ → ℕ) : ℕ → ℕ → Date → List Activity
  | 0, _, _ => []
  | fuel + 1, mi, cur =>
    if dateLe cur ctx.today then
      (if cur.m = 3 ∨ cur.m = 6 ∨ cur.m = 9 ∨ cur.m = 12 then
        [ctx.brokerageId, ctx.iraId].enum.flatMap (fun ai =>
          DIVIDEND_SYMBOLS.enum.flatMap (fun si =>
            let qty := positions (ai.2, si.2)
            if 0 < qty then
              let divPerShare : ℤ := (pyRandintN 20 150 (draws mi ai.1 si.1) : ℤ)
              if 0 < qty * divPerShare then
                [dividendActivity cur si.2 qty divPerShare ai.2]
              else []
            else []))
      else [])
        ++ dividendLoop ctx positions draws fuel (mi + 1) (nextMonthD cur)
    else []

/-- All random draws `seed_trading_activities` consumes. -/
structure TradingOracle where
  contrib : ℕ → ContribDraw
  trade : ℕ → TradeDraw
  divRaw : ℕ → ℕ → ℕ → ℕ

/-- `seed_trading_activities(conn, days_back)`: the full `activities` list
handed to the bulk insert, in generation order — initial deposits, monthly
contributions, `days_back // 10` buy/sell trades, then quarterly dividends
computed from the final tracked positions. -/
def seed_trading_activities (accountMap : String → Option ℕ) (daysBack : ℕ)
    (today : Date) (contribFuel divFuel : ℕ) (o : TradingOracle) : List Activity :=
  let brokerageId := accountMap "Brokerage Account"
  let iraId := accountMap "Roth IRA"
  let startDate := subDays today daysBack
  let ctx : TradeCtx := ⟨today, daysBack, brokerageId, iraId⟩
  let initialDeposits :=
    [depositActivity startDate brokerageId 500000 "Initial deposit",
     depositActivity startDate iraId 600000 "Annual IRA contribution"]
  let trades := tradesLoopAux ctx o.trade (daysBack / 10) 0 (fun _ => 0)
  initialDeposits
    ++ contribLoop ctx startDate o.contrib contribFuel 0 startDate
    ++ trades.1
    ++ dividendLoop ctx trades.2 o.divRaw divFuel 0 startDate

/-! ## Claim-side (specification-language) definitions

These definitions follow the wording of the specification, not the source;
they exist to state the claims and are compared against the source-derived
generators above. -/

/-- Claim-side replay semantics for the position of one (account, symbol)
pair: DEPOSIT and BUY events add their quantity, SELL subtracts it, DIVIDEND
leaves the position unchanged. -/
def replayDelta (a : Activity) : ℚ :=
  if a.activityType = "SELL" then -a.quantity
  else if a.activityType = "DIVIDEND" then 0
  else a.quantity

/-- Claim-side running position of a key after replaying a list of
activities. -/
def replayPos (l : List Activity) (k : PosKey) : ℚ :=
  ((l.filter (fun a => (a.accountId, a.symbol) = k)).map replayDelta).sum

/-- Claim-side chronological ordering: a stable sort of the activities by
date. -/
def sortByDate (l : List Activity) : List Activity :=
  l.insertionSort (fun a b => dateLe a.date b.date = true)

/-- Claim-side held position of a key as of a date: replay of every activity
dated on or before it. -/
def heldAsOf (l : List Activity) (t : Date) (k : PosKey) : ℚ :=
  replayPos (l.filter (fun a => dateLe a.date t)) k

/-- Claim-side count of synthetic-expense draws whose drawn category name
fails to resolve to a store identifier. -/
def specUnresolvedStoreDraws (ctx : ExpenseCtx) (n : ℕ)
    (draws : ℕ → ExpenseDraw) : ℕ :=
  ((List.range n).filter (fun i =>
    (ctx.categoryMap (pyChoice weightedCategories "" (draws i).catRaw)).isNone)).length

/-! ## Arithmetic facts about the modelled Python primitives -/

theorem unit01_nonneg (x : ℚ) : 0 ≤ unit01 x := le_max_left 0 _

theorem unit01_le_one (x : ℚ) : unit01 x ≤ 1 := by
  unfold unit01 clampQ
  rcases le_total ((1 : ℚ)) (min 1 x) with h | h
  · simp [max_le_iff, min_le_iff]
  · simp only [max_le_iff]
    exact ⟨one_pos.le, h⟩

theorem le_pyUniform (lo hi u : ℚ) (h : lo ≤ hi) : lo ≤ pyUniform lo hi u := by
  unfold pyUniform
  nlinarith [unit01_nonneg u, unit01_le_one u]

theorem pyUniform_le (lo hi u : ℚ) (h : lo ≤ hi) : pyUniform lo hi u ≤ hi := by
  unfold pyUniform
  nlinarith [unit01_nonneg u, unit01_le_one u]

theorem pyInt_of_nonneg {q : ℚ} (h : 0 ≤ q) : pyInt q = ⌊q⌋ := if_pos h

theorem le_pyInt {n : ℤ} {q : ℚ} (h0 : 0 ≤ q) (h : (n : ℚ) ≤ q) : n ≤ pyInt q := by
  rw [pyInt_of_nonneg h0]
  exact Int.le_floor.mpr h

theorem pyInt_le {n : ℤ} {q : ℚ} (h0 : 0 ≤ q) (h : q ≤ (n : ℚ)) : pyInt q ≤ n := by
  rw [pyInt_of_nonneg h0]
  exact_mod_cast (Int.floor_le q).trans h

theorem pyInt_lt {n : ℤ} {q : ℚ} (h0 : 0 ≤ q) (h : q < (n : ℚ)) : pyInt q < n := by
  rw [pyInt_of_nonneg h0]
  exact Int.floor_lt.mpr h

theorem pyInt_nonneg {q : ℚ} (h : 0 ≤ q) : 0 ≤ pyInt q :=
  le_pyInt h (by exact_mod_cast h)

theorem le_pyRandintN (a b raw : ℕ) : a ≤ pyRandintN a b raw := Nat.le_add_right a _

theorem pyRandintN_le {a b : ℕ} (raw : ℕ) (h : a ≤ b) : pyRandintN a b raw ≤ b := by
  unfold pyRandintN
  have hlt : raw % (b - a + 1) < b - a + 1 := Nat.mod_lt _ (Nat.succ_pos _)
  omega

theorem pyChoice_mem {l : List α} (dflt : α) (raw : ℕ) (h : l ≠ []) :
    pyChoice l dflt raw ∈ l := by
  unfold pyChoice
  have hpos : 0 < l.length := List.length_pos.mpr h
  have hlt : raw % l.length < l.length := Nat.mod_lt _ hpos
  rw [List.getD_eq_getElem l dflt hlt]
  exact List.getElem_mem hlt

theorem replayPos_nil (k : PosKey) : replayPos [] k = 0 := rfl

theorem replayPos_cons (a : Activity) (l : List Activity) (k : PosKey) :
    replayPos (a :: l) k =
      (if (a.accountId, a.symbol) = k then replayDelta a else 0) + replayPos l k := by
  unfold replayPos
  by_cases h : (a.accountId, a.symbol) = k
  · simp [List.filter_cons, h]
  · simp [List.filter_cons, h]

theorem replayPos_append (l₁ l₂ : List Activity) (k : PosKey) :
    replayPos (l₁ ++ l₂) k = replayPos l₁ k + replayPos l₂ k := by
  unfold replayPos
  rw [List.filter_append, List.map_append, List.sum_append]

theorem headD_mem_of_ne_nil {α : Type _} {l : List α} (d : α) (h : l ≠ []) :
    l.headD d ∈ l := by
  cases l with
  | nil => exact absurd rfl h
  | cons a t => exact List.mem_cons_self a t

theorem replayPos_nonneg_of_deltas (l : List Activity) (k : PosKey)
    (h : ∀ a ∈ l, 0 ≤ replayDelta a) : 0 ≤ replayPos l k := by
  unfold replayPos
  apply List.sum_nonneg
  intro q hq
  obtain ⟨a, ha, rfl⟩ := List.mem_map.mp hq
  exact h a (List.mem_of_mem_filter ha)

/-! ## Catalog seeding: idempotence analysis (claim C3) -/

theorem insertTag_present_preserve {s : Store} {n : String}
    (h : s.tags.any (fun r => r.name = n)) (n' c st : String) :
    (insertTagIfAbsent s n' c st).tags.any (fun r => r.name = n) := by
  unfold insertTagIfAbsent
  split
  · exact h
  · simp only [List.any_append]
    simp [h]

theorem insertTag_present_self (s : Store) (n c st : String) :
    (insertTagIfAbsent s n c st).tags.any (fun r => r.name = n) := by
  unfold insertTagIfAbsent
  split
  · assumption
  · simp [List.any_append]

theorem seedTagsFold_preserve {n : String} (l : List (String × String × String))
    (s : Store) (h : s.tags.any (fun r => r.name = n)) :
    ((l.foldl (fun acc t => insertTagIfAbsent acc t.1 t.2.1 t.2.2) s).tags.any
      (fun r => r.name = n)) := by
  induction l generalizing s with
  | nil => exact h
  | cons t l ih => exact ih _ (insertTag_present_preserve h _ _ _)

theorem seedTagsFold_present (l : List (String × String × String)) (s : Store)
    {t : String × String × String} (ht : t ∈ l) :
    ((l.foldl (fun acc t => insertTagIfAbsent acc t.1 t.2.1 t.2.2) s).tags.any
      (fun r => r.name = t.1)) := by
  induction l generalizing s with
  | nil => cases ht
  | cons hd l ih =>
    rcases List.mem_cons.mp ht with heq | hmem
    · subst heq
      exact seedTagsFold_preserve l _ (insertTag_present_self s _ _ _)
    · exact ih _ hmem

theorem seedTagsFold_noop (l : List (String × String × String)) (s : Store)
    (h : ∀ t ∈ l, s.tags.any (fun r => r.name = t.1)) :
    l.foldl (fun acc t => insertTagIfAbsent acc t.1 t.2.1 t.2.2) s = s := by
  induction l with
  | nil => rfl
  | cons hd l ih =>
    rw [List.foldl_cons]
    have hins : insertTagIfAbsent s hd.1 hd.2.1 hd.2.2 = s := by
      unfold insertTagIfAbsent
      rw [if_pos (h hd (List.mem_cons_self hd l))]
    rw [hins]
    exact ih (fun t ht => h t (List.mem_cons_of_mem hd ht))

theorem seed_tags_idem (s : Store) : seed_tags (seed_tags s) = seed_tags s :=
  seedTagsFold_noop TAGS _ (fun _ ht => seedTagsFold_present TAGS s ht)

theorem insertAccount_present_preserve {s : Store} {n : String}
    (h : s.accounts.any (fun r => r.name = n)) (n' ty : String) :
    (insertAccountIfAbsent s n' ty).accounts.any (fun r => r.name = n) := by
  unfold insertAccountIfAbsent
  split
  · exact h
  · simp only [List.any_append]
    simp [h]

theorem insertAccount_present_self (s : Store) (n ty : String) :
    (insertAccountIfAbsent s n ty).accounts.any (fun r => r.name = n) := by
  unfold insertAccountIfAbsent
  split
  · assumption
  · simp [List.any_append]

theorem seedAccountsFold_preserve {n : String} (l : List (String × String))
    (s : Store) (h : s.accounts.any (fun r => r.name = n)) :
    ((l.foldl (fun acc a => insertAccountIfAbsent acc a.1 a.2) s).accounts.any
      (fun r => r.name = n)) := by
  induction l generalizing s with
  | nil => exact h
  | cons t l ih => exact ih _ (insertAccount_present_preserve h _ _)

theorem seedAccountsFold_present (l : List (String × String)) (s : Store)
    {a : String × String} (ha : a ∈ l) :
    ((l.foldl (fun acc a => insertAccountIfAbsent acc a.1 a.2) s).accounts.any
      (fun r => r.name = a.1)) := by
  induction l generalizing s with
  | nil => cases ha
  | cons hd l ih =>
    rcases List.mem_cons.mp ha with heq | hmem
    · subst heq
      exact seedAccountsFold_preserve l _ (insertAccount_present_self s _ _)
    · exact ih _ hmem

theorem seedAccountsFold_noop (l : List (String × String)) (s : Store)
    (h : ∀ a ∈ l, s.accounts.any (fun r => r.name = a.1)) :
    l.foldl (fun acc a => insertAccountIfAbsent acc a.1 a.2) s = s := by
  induction l with
  | nil => rfl
  | cons hd l ih =>
    rw [List.foldl_cons]
    have hins : insertAccountIfAbsent s hd.1 hd.2 = s := by
      unfold insertAccountIfAbsent
      rw [if_pos (h hd (List.mem_cons_self hd l))]
    rw [hins]
    exact ih (fun a ha => h a (List.mem_cons_of_mem hd ha))

theorem seed_accounts_idem (s : Store) :
    seed_accounts (seed_accounts s) = seed_accounts s :=
  seedAccountsFold_noop ACCOUNTS _ (fun _ ha => seedAccountsFold_present ACCOUNTS s ha)

theorem seedRulesFold_rules (s : Store) (l : List (String × String × String × String))
    (acc : Store) :
    (l.foldl (seedRuleStep s) acc).rules = acc.rules ++ l.filterMap (ruleResolve s) := by
  induction l generalizing acc with
  | nil => simp
  | cons r l ih =>
    rw [List.foldl_cons, List.filterMap_cons]
    cases h : ruleResolve s r with
    | none =>
      have hstep : seedRuleStep s acc r = acc := by
        unfold seedRuleStep
        rw [h]
      rw [hstep, ih]
    | some row =>
      have hstep : seedRuleStep s acc r = { acc with rules := acc.rules ++ [row] } := by
        unfold seedRuleStep
        rw [h]
      rw [hstep, ih]
      simp

theorem seedRulesFold_categories (s : Store)
    (l : List (String × String × String × String)) (acc : Store) :
    (l.foldl (seedRuleStep s) acc).categories = acc.categories := by
  induction l generalizing acc with
  | nil => rfl
  | cons r l ih =>
    rw [List.foldl_cons]
    rw [ih]
    unfold seedRuleStep
    cases ruleResolve s r <;> rfl

theorem seedRulesFold_tags (s : Store)
    (l : List (String × String × String × String)) (acc : Store) :
    (l.foldl (seedRuleStep s) acc).tags = acc.tags := by
  induction l generalizing acc with
  | nil => rfl
  | cons r l ih =>
    rw [List.foldl_cons]
    rw [ih]
    unfold seedRuleStep
    cases ruleResolve s r <;> rfl

theorem ruleResolve_congr {s₁ s₂ : Store} (hc : s₁.categories = s₂.categories)
    (ht : s₁.tags = s₂.tags) (r : String × String × String × String) :
    ruleResolve s₁ r = ruleResolve s₂ r := by
  unfold ruleResolve get_category_map get_tag_map
  rw [hc, ht]

theorem resolvedRules_congr {s₁ s₂ : Store} (hc : s₁.categories = s₂.categories)
    (ht : s₁.tags = s₂.tags) : resolvedRules s₁ = resolvedRules s₂ := by
  unfold resolvedRules
  exact List.filterMap_congr (fun r _ => ruleResolve_congr hc ht r)

/-- Claim C3, amended: the tag and account seeders are idempotent (their
inserts are `INSERT OR IGNORE` keyed on the unique name), but the rule seeder
uses a plain `INSERT`: every run appends the whole list of name-resolvable
rules again, so a second run duplicates those rows instead of leaving the
store unchanged. -/
theorem catalog_seeding_idempotence_split (s : Store) :
    seed_tags (seed_tags s) = seed_tags s ∧
    seed_accounts (seed_accounts s) = seed_accounts s ∧
    (seed_rules s).rules = s.rules ++ resolvedRules s ∧
    (seed_rules (seed_rules s)).rules = s.rules ++ resolvedRules s ++ resolvedRules s := by
  refine ⟨seed_tags_idem s, seed_accounts_idem s, seedRulesFold_rules s RULES s, ?_⟩
  have hc : (seed_rules s).categories = s.categories := seedRulesFold_categories s RULES s
  have ht : (seed_rules s).tags = s.tags := seedRulesFold_tags s RULES s
  have h1 : (seed_rules (seed_rules s)).rules
      = (seed_rules s).rules ++ resolvedRules (seed_rules s) :=
    seedRulesFold_rules (seed_rules s) RULES (seed_rules s)
  have h2 : resolvedRules (seed_rules s) = resolvedRules s := resolvedRules_congr hc ht
  have h3 : (seed_rules s).rules = s.rules ++ resolvedRules s := seedRulesFold_rules s RULES s
  rw [h1, h2, h3]

/-- Claim C3, counterexample: in a store holding the single category
`Shopping`, one run of the seeding sequence (accounts, tags, rules — the
order `main` uses) inserts two resolvable rules, and a second run inserts
them again, so running the seeders twice does not leave the same rows as
running them once. -/
theorem catalog_seeding_not_idempotent :
    (seedCatalogs (Store.mk [⟨1, "Shopping"⟩] [] [] [])).rules.length = 2 ∧
    (seedCatalogs (seedCatalogs (Store.mk [⟨1, "Shopping"⟩] [] [] []))).rules.length = 4 ∧
    seedCatalogs (seedCatalogs (Store.mk [⟨1, "Shopping"⟩] [] [] []))
      ≠ seedCatalogs (Store.mk [⟨1, "Shopping"⟩] [] [] []) := by
  decide

/-! ## The store-location guard (claim C5) -/

/-- Claim C5, counterexample: with a non-existent store location the script
reports the error and performs no mutation, but `main` merely returns, so the
process exit status is 0 — the claimed nonzero exit status is false. -/
theorem missing_store_exit_status_zero :
    (mainOutcome false).errorShown = true ∧
    (mainOutcome false).storeMutated = false ∧
    ¬(mainOutcome false).exitCode ≠ 0 := by
  decide

/-- Claim C5, amended: a non-existent store location yields a user-visible
error and no store mutation, and the process terminates normally with exit
status 0 (a plain `return` from `main`). -/
theorem missing_store_outcome :
    mainOutcome false = ⟨true, false, 0⟩ := by
  decide

/-! ## Synthetic expenses: characterization (claims C2, C8, C9) -/

theorem weightedCategories_ne_nil : weightedCategories ≠ [] := by decide

theorem weightedCategories_have_templates :
    ∀ c ∈ weightedCategories,
      (EXPENSE_TEMPLATES.find? (fun p => p.1 = c)).isSome = true := by decide

theorem expense_templates_wf :
    ∀ p ∈ EXPENSE_TEMPLATES, p.2 ≠ [] ∧
      ∀ t ∈ p.2, t.2.1 ≤ t.2.2 ∧ 0 < t.2.1 ∧ vendorOf t.1 ≠ "" := by decide

/-- Full characterization of one synthetic-expense iteration: it always
produces a record (the template-catalog `continue` never fires, because every
weighted category has templates), and the record's fields are as generated —
in particular the category id is the (possibly failed) store lookup and the
amount is a negative value within the chosen template's bounds. -/
theorem syntheticExpense_spec (ctx : ExpenseCtx) (d : ExpenseDraw) :
    ∃ rec c ts t, syntheticExpense ctx d = some rec ∧
      c ∈ weightedCategories ∧ (c, ts) ∈ EXPENSE_TEMPLATES ∧ t ∈ ts ∧
      c = pyChoice weightedCategories "" d.catRaw ∧
      rec.date = subDays ctx.today ((d.paretoRaw % ctx.daysBack : ℕ) : ℤ) ∧
      rec.description = t.1 ∧
      rec.amountCents = -((pyRandintN t.2.1 t.2.2 d.amtRaw : ℕ) : ℤ) ∧
      rec.categoryId = ctx.categoryMap c ∧
      rec.payer = none ∧ rec.payee = some (vendorOf t.1) ∧ vendorOf t.1 ≠ "" ∧
      t.2.1 ≤ pyRandintN t.2.1 t.2.2 d.amtRaw ∧
      pyRandintN t.2.1 t.2.2 d.amtRaw ≤ t.2.2 ∧ 0 < t.2.1 := by
  have hcmem : pyChoice weightedCategories "" d.catRaw ∈ weightedCategories :=
    pyChoice_mem "" d.catRaw weightedCategories_ne_nil
  obtain ⟨pr, hpr⟩ := Option.isSome_iff_exists.mp
    (weightedCategories_have_templates _ hcmem)
  have hprmem : pr ∈ EXPENSE_TEMPLATES := List.mem_of_find?_eq_some hpr
  have hpr1 : pr.1 = pyChoice weightedCategories "" d.catRaw := by
    have := List.find?_some hpr
    exact of_decide_eq_true this
  obtain ⟨hne, hwf⟩ := expense_templates_wf pr hprmem
  have htmem : pyChoice pr.2 ("", 0, 0) d.tmplRaw ∈ pr.2 :=
    pyChoice_mem _ d.tmplRaw hne
  obtain ⟨hle, hpos, hven⟩ := hwf _ htmem
  have hsome : syntheticExpense ctx d =
      some ⟨subDays ctx.today ((d.paretoRaw % ctx.daysBack : ℕ) : ℤ),
        -((pyRandintN (pyChoice pr.2 ("", 0, 0) d.tmplRaw).2.1
            (pyChoice pr.2 ("", 0, 0) d.tmplRaw).2.2 d.amtRaw : ℕ) : ℤ),
        "USD", (pyChoice pr.2 ("", 0, 0) d.tmplRaw).1,
        ctx.categoryMap (pyChoice weightedCategories "" d.catRaw),
        (if pyChoice weightedCategories "" d.catRaw = "Rent/Mortgage" ∨
            pyChoice weightedCategories "" d.catRaw = "Utilities" ∨
            pyChoice weightedCategories "" d.catRaw = "Insurance" then
          ctx.accountMap "Primary Checking"
        else if 50000 < pyRandintN (pyChoice pr.2 ("", 0, 0) d.tmplRaw).2.1
            (pyChoice pr.2 ("", 0, 0) d.tmplRaw).2.2 d.amtRaw then
          (if unit01 d.acctRoll < 7 / 10 then ctx.accountMap "Primary Checking"
           else ctx.accountMap "Credit Card")
        else
          (if unit01 d.acctRoll < 4 / 5 then ctx.accountMap "Credit Card"
           else ctx.accountMap "Primary Checking")),
        (if unit01 d.noteRoll < 3 / 20 then some (pyChoice noteTemplates "" d.noteRaw)
         else none),
        none, some (vendorOf (pyChoice pr.2 ("", 0, 0) d.tmplRaw).1)⟩ := by
    unfold syntheticExpense
    dsimp only
    rw [hpr]
  refine ⟨_, pr.1, pr.2, pyChoice pr.2 ("", 0, 0) d.tmplRaw, hsome, ?_, ?_, htmem,
    hpr1, rfl, rfl, rfl, ?_, rfl, rfl, hven, le_pyRandintN _ _ _,
    pyRandintN_le d.amtRaw hle, hpos⟩
  · rw [hpr1]; exact hcmem
  · exact hprmem
  · rw [hpr1]

theorem length_filterMap_of_isSome {α β : Type _} (f : α → Option β) :
    ∀ l : List α, (∀ a ∈ l, (f a).isSome = true) → (l.filterMap f).length = l.length := by
  intro l
  induction l with
  | nil => intro _; rfl
  | cons a l ih =>
    intro h
    rw [List.filterMap_cons]
    obtain ⟨b, hb⟩ := Option.isSome_iff_exists.mp (h a (List.mem_cons_self a l))
    rw [hb]
    simp only [List.length_cons]
    rw [ih (fun x hx => h x (List.mem_cons_of_mem a hx))]

/-- Claim C2, amended: the `continue` in the synthetic-expense loop is keyed
on the template catalog, not on store resolution — every weighted category has
templates, so no draw is ever skipped and exactly `num_expenses` synthetic
records are produced; a draw whose category fails to resolve in the store is
still emitted, carrying the failed (empty) store lookup as its category
reference. -/
theorem synthetic_expense_count (ctx : ExpenseCtx) (n : ℕ) (draws : ℕ → ExpenseDraw) :
    (seedExpensesSynthetic ctx n draws).length = n ∧
    ∀ d : ExpenseDraw, ∃ rec, syntheticExpense ctx d = some rec ∧
      rec.categoryId = ctx.categoryMap (pyChoice weightedCategories "" d.catRaw) := by
  constructor
  · unfold seedExpensesSynthetic
    rw [length_filterMap_of_isSome _ _ (fun i _ => ?_), List.length_range]
    obtain ⟨rec, c, ts, t, hsome, -, -, -, hc, -⟩ := syntheticExpense_spec ctx (draws i)
    rw [hsome]
    rfl
  · intro d
    obtain ⟨rec, c, ts, t, hsome, -, -, -, hc, -, -, -, hcat, -⟩ :=
      syntheticExpense_spec ctx d
    exact ⟨rec, hsome, by rw [hcat, hc]⟩

/-- Store maps for a store with no categories and no accounts. -/
def emptyMaps : String → Option ℕ := fun _ => none

/-- A context whose category lookups all fail. -/
def noStoreCtx : ExpenseCtx := ⟨emptyMaps, emptyMaps, ⟨2026, 10, 12⟩, 365⟩

/-- A concrete draw oracle for the expense loop. -/
def plainExpenseDraws : ℕ → ExpenseDraw := fun _ => ⟨0, 0, 0, 30, 0, 1, 0⟩

/-- Claim C2, counterexample: with an empty category store and one requested
expense, the single draw's category (`Groceries`) fails to resolve to a store
identifier, yet one record is persisted (with an empty category reference)
instead of the claimed `1 - 1 = 0`. -/
theorem unresolved_category_not_skipped :
    (seedExpensesSynthetic noStoreCtx 1 plainExpenseDraws).length = 1 ∧
    specUnresolvedStoreDraws noStoreCtx 1 plainExpenseDraws = 1 ∧
    (seedExpensesSynthetic noStoreCtx 1 plainExpenseDraws).map (·.categoryId) = [none] ∧
    (1 : ℕ) ≠ 1 - 1 := by
  with_unfolding_all decide

/-- Claim C9: with a one-day lookback window and one requested expense, the
generator emits exactly one synthetic record for every value of the random
draws; the Pareto day offset collapses to 0 modulo the window, so the record
is dated today, its description and amount come from one template of a
weighted category (amount within the template's bounds), and its category
reference is the store resolution of that weighted category. -/
theorem window_one_day_single_expense (ctx : ExpenseCtx) (draws : ℕ → ExpenseDraw)
    (hb : ctx.daysBack = 1) (ht : ctx.today.Valid) :
    ∃ rec, seedExpensesSynthetic ctx 1 draws = [rec] ∧ rec.date = ctx.today ∧
      ∃ c ts t, c ∈ weightedCategories ∧ (c, ts) ∈ EXPENSE_TEMPLATES ∧ t ∈ ts ∧
        rec.description = t.1 ∧ rec.categoryId = ctx.categoryMap c ∧
        (t.2.1 : ℤ) ≤ -rec.amountCents ∧ -rec.amountCents ≤ (t.2.2 : ℤ) := by
  obtain ⟨rec, c, ts, t, hsome, hcmem, htsmem, htmem, hc, hdate, hdesc, hamt,
    hcat, hpayer, hpayee, hven, hlo, hhi, hposmin⟩ := syntheticExpense_spec ctx (draws 0)
  refine ⟨rec, ?_, ?_, c, ts, t, hcmem, htsmem, htmem, hdesc, hcat, ?_, ?_⟩
  · unfold seedExpensesSynthetic
    have hr : List.range 1 = [0] := rfl
    rw [hr, List.filterMap_cons, hsome, List.filterMap_nil]
  · rw [hdate, hb]
    have : ((draws 0).paretoRaw % 1 : ℕ) = 0 := Nat.mod_one _
    rw [this]
    show subDays ctx.today ((0 : ℕ) : ℤ) = ctx.today
    unfold subDays
    rw [Nat.cast_zero, sub_zero]
    exact ht
  · rw [hamt]
    simp only [neg_neg]
    exact_mod_cast hlo
  · rw [hamt]
    simp only [neg_neg]
    exact_mod_cast hhi

/-- A one-day-window context over an empty store. -/
def oneDayCtx : ExpenseCtx := ⟨emptyMaps, emptyMaps, ⟨2026, 10, 12⟩, 1⟩

theorem window_one_day_single_expense_witness :
    ∃ rec, seedExpensesSynthetic oneDayCtx 1 plainExpenseDraws = [rec] ∧
      rec.date = oneDayCtx.today ∧
      ∃ c ts t, c ∈ weightedCategories ∧ (c, ts) ∈ EXPENSE_TEMPLATES ∧ t ∈ ts ∧
        rec.description = t.1 ∧ rec.categoryId = oneDayCtx.categoryMap c ∧
        (t.2.1 : ℤ) ≤ -rec.amountCents ∧ -rec.amountCents ≤ (t.2.2 : ℤ) :=
  window_one_day_single_expense oneDayCtx plainExpenseDraws rfl (by decide)

/-! ## The trade loop: SELL bounds and position invariants (claims C6, C10) -/

theorem tradeStep_sell_spec (ctx : TradeCtx) (pos : Positions) (d : TradeDraw) :
    ∀ a ∈ (tradeStep ctx pos d).1, a.activityType = "SELL" →
      5 ≤ pos (a.accountId, a.symbol) ∧ 1 ≤ a.quantity ∧ a.quantity ≤ 5 ∧
      a.quantity ≤ min ((pos (a.accountId, a.symbol) : ℚ)) 5 := by
  unfold tradeStep
  dsimp only
  set acct := (if unit01 d.acctRoll < 4 / 5 then ctx.brokerageId else ctx.iraId)
    with hacct
  set pool := (if acct = ctx.iraId then
      TRADING_SYMBOLS.filter (fun s => iraEtfNames.contains s.sym)
    else TRADING_SYMBOLS) with hpool
  set si := pyChoice pool ⟨"", "", 0, 0⟩ d.symRaw with hsi
  set cq := pos (acct, si.sym) with hcq
  by_cases hbuy : cq < 5 ∨ unit01 d.buyRoll < 7 / 10
  · rw [if_pos hbuy]
    intro a ha hs
    rw [List.mem_singleton] at ha
    subst ha
    simp at hs
  · rw [if_neg hbuy]
    push_neg at hbuy
    obtain ⟨h5, -⟩ := hbuy
    rw [if_pos (lt_of_lt_of_le (by norm_num : (0 : ℤ) < 5) h5)]
    intro a ha hs
    rw [List.mem_singleton] at ha
    subst ha
    dsimp only
    rw [← hcq]
    have hmin : min cq 5 = 5 := min_eq_right h5
    have hminq : min ((cq : ℚ)) 5 = 5 := min_eq_right (by exact_mod_cast h5)
    rw [hmin, hminq]
    have htn : ((5 : ℤ)).toNat = 5 := rfl
    rw [htn]
    refine ⟨h5, ?_, ?_, ?_⟩
    · exact_mod_cast le_pyRandintN 1 5 d.sellQtyRaw
    · exact_mod_cast pyRandintN_le d.sellQtyRaw (by norm_num)
    · exact_mod_cast pyRandintN_le d.sellQtyRaw (by norm_num)

theorem tradeStep_types (ctx : TradeCtx) (pos : Positions) (d : TradeDraw) :
    ∀ a ∈ (tradeStep ctx pos d).1,
      a.activityType = "BUY" ∨ a.activityType = "SELL" := by
  unfold tradeStep
  dsimp only
  set acct := (if unit01 d.acctRoll < 4 / 5 then ctx.brokerageId else ctx.iraId)
  set pool := (if acct = ctx.iraId then
      TRADING_SYMBOLS.filter (fun s => iraEtfNames.contains s.sym)
    else TRADING_SYMBOLS)
  set si := pyChoice pool ⟨"", "", 0, 0⟩ d.symRaw
  set cq := pos (acct, si.sym)
  by_cases hbuy : cq < 5 ∨ unit01 d.buyRoll < 7 / 10
  · rw [if_pos hbuy]
    intro a ha
    rw [List.mem_singleton] at ha
    subst ha
    exact Or.inl rfl
  · rw [if_neg hbuy]
    push_neg at hbuy
    obtain ⟨h5, -⟩ := hbuy
    rw [if_pos (lt_of_lt_of_le (by norm_num : (0 : ℤ) < 5) h5)]
    intro a ha
    rw [List.mem_singleton] at ha
    subst ha
    exact Or.inr rfl

theorem tradeStep_length (ctx : TradeCtx) (pos : Positions) (d : TradeDraw) :
    (tradeStep ctx pos d).1.length = 1 := by
  unfold tradeStep
  dsimp only
  set acct := (if unit01 d.acctRoll < 4 / 5 then ctx.brokerageId else ctx.iraId)
  set pool := (if acct = ctx.iraId then
      TRADING_SYMBOLS.filter (fun s => iraEtfNames.contains s.sym)
    else TRADING_SYMBOLS)
  set si := pyChoice pool ⟨"", "", 0, 0⟩ d.symRaw
  set cq := pos (acct, si.sym)
  by_cases hbuy : cq < 5 ∨ unit01 d.buyRoll < 7 / 10
  · rw [if_pos hbuy]
    rfl
  · rw [if_neg hbuy]
    push_neg at hbuy
    obtain ⟨h5, -⟩ := hbuy
    rw [if_pos (lt_of_lt_of_le (by norm_num : (0 : ℤ) < 5) h5)]
    rfl

theorem tradeStep_nonneg (ctx : TradeCtx) (pos : Positions) (d : TradeDraw)
    (h : ∀ k, 0 ≤ pos k) : ∀ k, 0 ≤ (tradeStep ctx pos d).2 k := by
  unfold tradeStep
  dsimp only
  set acct := (if unit01 d.acctRoll < 4 / 5 then ctx.brokerageId else ctx.iraId)
  set pool := (if acct = ctx.iraId then
      TRADING_SYMBOLS.filter (fun s => iraEtfNames.contains s.sym)
    else TRADING_SYMBOLS)
  set si := pyChoice pool ⟨"", "", 0, 0⟩ d.symRaw
  set cq := pos (acct, si.sym) with hcq
  by_cases hbuy : cq < 5 ∨ unit01 d.buyRoll < 7 / 10
  · rw [if_pos hbuy]
    intro k
    dsimp only
    unfold updatePos
    split
    · have : (0 : ℤ) ≤ cq := h _
      positivity
    · exact h k
  · rw [if_neg hbuy]
    push_neg at hbuy
    obtain ⟨h5, -⟩ := hbuy
    rw [if_pos (lt_of_lt_of_le (by norm_num : (0 : ℤ) < 5) h5)]
    intro k
    dsimp only
    unfold updatePos
    split
    · have hmin : min cq 5 = 5 := min_eq_right h5
      have hq : pyRandintN 1 (min cq 5).toNat d.sellQtyRaw ≤ 5 := by
        rw [hmin]
        exact pyRandintN_le d.sellQtyRaw (by norm_num)
      have : (pyRandintN 1 (min cq 5).toNat d.sellQtyRaw : ℤ) ≤ 5 := by exact_mod_cast hq
      omega
    · exact h k

theorem tradesLoopAux_nonneg (ctx : TradeCtx) (draws : ℕ → TradeDraw) :
    ∀ (n i : ℕ) (pos : Positions), (∀ k, 0 ≤ pos k) →
      ∀ k, 0 ≤ (tradesLoopAux ctx draws n i pos).2 k := by
  intro n
  induction n with
  | zero => exact fun i pos h k => h k
  | succ n ih =>
    intro i pos h k
    exact ih (i + 1) _ (tradeStep_nonneg ctx pos (draws i) h) k

theorem tradesLoopAux_length (ctx : TradeCtx) (draws : ℕ → TradeDraw) :
    ∀ (n i : ℕ) (pos : Positions), (tradesLoopAux ctx draws n i pos).1.length = n := by
  intro n
  induction n with
  | zero => intro i pos; rfl
  | succ n ih =>
    intro i pos
    show ((tradeStep ctx pos (draws i)).1
      ++ (tradesLoopAux ctx draws n (i + 1) (tradeStep ctx pos (draws i)).2).1).length = n + 1
    rw [List.length_append, tradeStep_length, ih]
    omega

/-- Claim C6: a SELL is emitted only when the tracked position of its
(account, symbol) pair immediately before the sale (in generation order) is
strictly positive, its quantity lies between 1 and that position capped at 5,
and the tracked positions stay non-negative after every generation step
(running the loop for any step count `n` yields exactly the state after `n`
steps, so the second conjunct covers every intermediate state). -/
theorem trading_sell_within_position (ctx : TradeCtx) (draws : ℕ → TradeDraw) :
    (∀ (pos : Positions) (d : TradeDraw), ∀ a ∈ (tradeStep ctx pos d).1,
        a.activityType = "SELL" →
          0 < pos (a.accountId, a.symbol) ∧ 1 ≤ a.quantity ∧
          a.quantity ≤ min ((pos (a.accountId, a.symbol) : ℚ)) 5) ∧
    (∀ (n i : ℕ) (pos : Positions), (∀ k, 0 ≤ pos k) →
        ∀ k, 0 ≤ (tradesLoopAux ctx draws n i pos).2 k) := by
  constructor
  · intro pos d a ha hs
    obtain ⟨h5, h1, h5q, hmin⟩ := tradeStep_sell_spec ctx pos d a ha hs
    exact ⟨lt_of_lt_of_le (by norm_num) h5, h1, hmin⟩
  · exact tradesLoopAux_nonneg ctx draws

/-- A concrete trading context: today 2026-01-20, 20-day window, brokerage
account id 4, IRA id 5. -/
def tradeCtx20 : TradeCtx := ⟨⟨2026, 1, 20⟩, 20, some 4, some 5⟩

/-- A concrete positions dictionary holding 10 AAPL shares in the
brokerage. -/
def sellTestPos : Positions :=
  fun k => if k = ((some 4 : Option ℕ), "AAPL") then 10 else 0

/-- A draw that forces the SELL branch: date 20 days back, brokerage, AAPL,
buy roll 1 (≥ 0.7), sell-quantity raw 4. -/
def sellTestDraw : TradeDraw := ⟨20, 0, 0, 0, 0, 1, 0, 0, 4, 0⟩

/-- Inhabitant used only to extract elements of concrete activity lists. -/
def defaultActivity : Activity := ⟨⟨0, 0, 0⟩, "", 0, "", 0, "", 0, none, ""⟩

/-- The single activity the concrete SELL step emits. -/
def sellTestAct : Activity :=
  ((tradeStep tradeCtx20 sellTestPos sellTestDraw).1).headD defaultActivity

set_option maxRecDepth 8000 in
theorem trading_sell_within_position_witness :
    0 < sellTestPos (sellTestAct.accountId, sellTestAct.symbol) ∧
    1 ≤ sellTestAct.quantity ∧
    sellTestAct.quantity ≤
      min ((sellTestPos (sellTestAct.accountId, sellTestAct.symbol) : ℚ)) 5 :=
  (trading_sell_within_position tradeCtx20 (fun _ => sellTestDraw)).1 sellTestPos
    sellTestDraw sellTestAct
    (headD_mem_of_ne_nil defaultActivity (by with_unfolding_all decide))
    (by with_unfolding_all decide)

/-- Claim C10: whenever the BUY branch is not taken the tracked position of
the chosen pair is at least 5 (so the SELL guard always holds — witnessed
here as: every emitted SELL had position at least 5), every iteration emits
exactly one activity, a BUY or a SELL, and every emitted SELL quantity lies
in [1, 5]; consequently the loop emits exactly one activity per draw. -/
theorem trading_no_draw_dropped (ctx : TradeCtx) (draws : ℕ → TradeDraw) :
    (∀ (pos : Positions) (d : TradeDraw),
        (tradeStep ctx pos d).1.length = 1 ∧
        ∀ a ∈ (tradeStep ctx pos d).1,
          (a.activityType = "BUY" ∨ a.activityType = "SELL") ∧
          (a.activityType = "SELL" →
            5 ≤ pos (a.accountId, a.symbol) ∧ 1 ≤ a.quantity ∧ a.quantity ≤ 5)) ∧
    (∀ (n i : ℕ) (pos : Positions), (tradesLoopAux ctx draws n i pos).1.length = n) := by
  constructor
  · intro pos d
    refine ⟨tradeStep_length ctx pos d, fun a ha => ⟨tradeStep_types ctx pos d a ha, ?_⟩⟩
    intro hs
    obtain ⟨h5, h1, h5q, -⟩ := tradeStep_sell_spec ctx pos d a ha hs
    exact ⟨h5, h1, h5q⟩
  · exact tradesLoopAux_length ctx draws

set_option maxRecDepth 8000 in
theorem trading_no_draw_dropped_witness :
    ((tradeStep tradeCtx20 sellTestPos sellTestDraw).1.length = 1) ∧
    ((sellTestAct.activityType = "BUY" ∨ sellTestAct.activityType = "SELL") ∧
      (sellTestAct.activityType = "SELL" →
        5 ≤ sellTestPos (sellTestAct.accountId, sellTestAct.symbol) ∧
        1 ≤ sellTestAct.quantity ∧ sellTestAct.quantity ≤ 5)) :=
  ⟨((trading_no_draw_dropped tradeCtx20 (fun _ => sellTestDraw)).1 sellTestPos
      sellTestDraw).1,
   ((trading_no_draw_dropped tradeCtx20 (fun _ => sellTestDraw)).1 sellTestPos
      sellTestDraw).2 sellTestAct
     (headD_mem_of_ne_nil defaultActivity (by with_unfolding_all decide))⟩

/-! ## Replay semantics of the generated activities (claims C1, C4) -/

theorem replayPos_singleton (a : Activity) (k : PosKey) :
    replayPos [a] k = if (a.accountId, a.symbol) = k then replayDelta a else 0 := by
  rw [replayPos_cons, replayPos_nil, add_zero]

/-- One trade step changes the positions dictionary by exactly the replay
delta of the activity it emits. -/
theorem tradeStep_replay (ctx : TradeCtx) (pos : Positions) (d : TradeDraw)
    (k : PosKey) :
    (((tradeStep ctx pos d).2 k : ℤ) : ℚ)
      = (pos k : ℚ) + replayPos (tradeStep ctx pos d).1 k := by
  unfold tradeStep
  dsimp only
  set acct := (if unit01 d.acctRoll < 4 / 5 then ctx.brokerageId else ctx.iraId)
  set pool := (if acct = ctx.iraId then
      TRADING_SYMBOLS.filter (fun s => iraEtfNames.contains s.sym)
    else TRADING_SYMBOLS)
  set si := pyChoice pool ⟨"", "", 0, 0⟩ d.symRaw
  set cq := pos (acct, si.sym) with hcq
  by_cases hbuy : cq < 5 ∨ unit01 d.buyRoll < 7 / 10
  · rw [if_pos hbuy]
    dsimp only
    rw [replayPos_singleton]
    dsimp only
    unfold updatePos
    by_cases hk : k = (acct, si.sym)
    · rw [if_pos hk, hk, if_pos rfl]
      have hdelta : replayDelta
          ⟨subDays ctx.today ((pyRandintN 0 ctx.daysBack d.dayRaw : ℕ) : ℤ), si.sym,
            ((pyRandintN 1 10 d.buyQtyRaw : ℕ) : ℚ), "BUY",
            pyInt ((si.basePrice : ℚ) /
                (1 + ((pyRandintN 0 ctx.daysBack d.dayRaw : ℕ) : ℚ) / 365
                  * pyUniform (1 / 20) (3 / 20) d.trendU)
              * (1 + pyUniform (-(si.volatility : ℚ) / 100)
                  ((si.volatility : ℚ) / 100) d.volU)),
            "USD", pyChoice feeChoices 0 d.buyFeeRaw, acct,
            "Buy " ++ toString (pyRandintN 1 10 d.buyQtyRaw) ++ " shares of " ++ si.sym⟩
          = ((pyRandintN 1 10 d.buyQtyRaw : ℕ) : ℚ) := by
        unfold replayDelta
        rw [if_neg (by decide : ¬("BUY" : String) = "SELL"),
          if_neg (by decide : ¬("BUY" : String) = "DIVIDEND")]
      rw [hdelta, ← hcq]
      push_cast
      ring
    · rw [if_neg hk, if_neg (Ne.symm hk)]
      simp
  · rw [if_neg hbuy]
    push_neg at hbuy
    obtain ⟨h5, -⟩ := hbuy
    rw [if_pos (lt_of_lt_of_le (by norm_num : (0 : ℤ) < 5) h5)]
    dsimp only
    rw [replayPos_singleton]
    dsimp only
    unfold updatePos
    by_cases hk : k = (acct, si.sym)
    · rw [if_pos hk, hk, if_pos rfl]
      have hdelta : replayDelta
          ⟨subDays ctx.today ((pyRandintN 0 ctx.daysBack d.dayRaw : ℕ) : ℤ), si.sym,
            ((pyRandintN 1 (min cq 5).toNat d.sellQtyRaw : ℕ) : ℚ), "SELL",
            pyInt ((si.basePrice : ℚ) /
                (1 + ((pyRandintN 0 ctx.daysBack d.dayRaw : ℕ) : ℚ) / 365
                  * pyUniform (1 / 20) (3 / 20) d.trendU)
              * (1 + pyUniform (-(si.volatility : ℚ) / 100)
                  ((si.volatility : ℚ) / 100) d.volU)),
            "USD", pyChoice feeChoices 0 d.sellFeeRaw, acct,
            "Sell " ++ toString (pyRandintN 1 (min cq 5).toNat d.sellQtyRaw)
              ++ " shares of " ++ si.sym⟩
          = -((pyRandintN 1 (min cq 5).toNat d.sellQtyRaw : ℕ) : ℚ) := by
        unfold replayDelta
        rw [if_pos rfl]
      rw [hdelta, ← hcq]
      push_cast
      ring
    · rw [if_neg hk, if_neg (Ne.symm hk)]
      simp

/-- Any generation-order prefix of the trade loop's output replays, on top of
the entry positions, to the (non-negative) intermediate tracked position. -/
theorem tradesLoopAux_prefix_nonneg (ctx : TradeCtx) (draws : ℕ → TradeDraw) :
    ∀ (n i : ℕ) (pos : Positions), (∀ k, 0 ≤ pos k) →
      ∀ l₁ l₂, (tradesLoopAux ctx draws n i pos).1 = l₁ ++ l₂ →
      ∀ k, 0 ≤ (pos k : ℚ) + replayPos l₁ k := by
  intro n
  induction n with
  | zero =>
    intro i pos h l₁ l₂ heq k
    have hnil : l₁ = [] := (List.append_eq_nil.mp heq.symm).1
    subst hnil
    rw [replayPos_nil, add_zero]
    exact_mod_cast h k
  | succ n ih =>
    intro i pos h l₁ l₂ heq k
    obtain ⟨a, ha⟩ : ∃ a, (tradeStep ctx pos (draws i)).1 = [a] := by
      have hl := tradeStep_length ctx pos (draws i)
      cases hstep : (tradeStep ctx pos (draws i)).1 with
      | nil => rw [hstep] at hl; simp at hl
      | cons x t =>
        rw [hstep] at hl
        rw [List.length_cons] at hl
        exact ⟨x, by rw [List.length_eq_zero.mp (by omega : t.length = 0)]⟩
    have hshape : (tradesLoopAux ctx draws (n + 1) i pos).1
        = a :: (tradesLoopAux ctx draws n (i + 1) (tradeStep ctx pos (draws i)).2).1 := by
      show ((tradeStep ctx pos (draws i)).1
        ++ (tradesLoopAux ctx draws n (i + 1) (tradeStep ctx pos (draws i)).2).1) = _
      rw [ha]
      rfl
    rw [hshape] at heq
    cases l₁ with
    | nil =>
      rw [replayPos_nil, add_zero]
      exact_mod_cast h k
    | cons b l₁' =>
      rw [List.cons_append] at heq
      injection heq with hb hrest
      subst hb
      have hnn' := tradeStep_nonneg ctx pos (draws i) h
      have hih := ih (i + 1) _ hnn' l₁' l₂ hrest k
      have hrepl := tradeStep_replay ctx pos (draws i) k
      rw [ha, replayPos_singleton] at hrepl
      rw [replayPos_cons]
      linarith [hih, hrepl]

theorem depositActivity_fields (date : Date) (acct : Option ℕ) (amountCents : ℕ)
    (note : String) :
    (depositActivity date acct amountCents note).activityType = "DEPOSIT" ∧
    0 ≤ (depositActivity date acct amountCents note).quantity := by
  constructor
  · rfl
  · show (0 : ℚ) ≤ (amountCents : ℚ) / 100
    positivity

/-- Every activity of the monthly-contribution loop is a DEPOSIT of a
non-negative cash quantity. -/
theorem contribLoop_deposits (ctx : TradeCtx) (startD : Date)
    (draws : ℕ → ContribDraw) :
    ∀ (fuel i : ℕ) (cur : Date), ∀ a ∈ contribLoop ctx startD draws fuel i cur,
      a.activityType = "DEPOSIT" ∧ 0 ≤ a.quantity := by
  intro fuel
  induction fuel with
  | zero =>
    intro i cur a ha
    simp [contribLoop] at ha
  | succ fuel ih =>
    intro i cur a ha
    unfold contribLoop at ha
    split at ha
    · rcases List.mem_cons.mp ha with rfl | ha'
      · exact depositActivity_fields _ _ _ _
      · rcases List.mem_append.mp ha' with hjan | hrest
        · split at hjan
          · rw [List.mem_singleton] at hjan
            subst hjan
            exact depositActivity_fields _ _ _ _
          · simp at hjan
        · exact ih (i + 1) (nextMonthD cur) a hrest
    · simp at ha

/-- Every activity of the quarterly-dividend loop is a DIVIDEND for a pair
whose (final) tracked position is strictly positive, carries exactly that
tracked quantity, and has replay delta 0 (it never changes any position). -/
theorem dividendLoop_spec (ctx : TradeCtx) (pos : Positions)
    (draws : ℕ → ℕ → ℕ → ℕ) :
    ∀ (fuel mi : ℕ) (cur : Date), ∀ a ∈ dividendLoop ctx pos draws fuel mi cur,
      a.activityType = "DIVIDEND" ∧ 0 < pos (a.accountId, a.symbol) ∧
      a.quantity = ((pos (a.accountId, a.symbol) : ℤ) : ℚ) ∧ replayDelta a = 0 := by
  intro fuel
  induction fuel with
  | zero =>
    intro mi cur a ha
    simp [dividendLoop] at ha
  | succ fuel ih =>
    intro mi cur a ha
    unfold dividendLoop at ha
    split at ha
    · rcases List.mem_append.mp ha with hq | hrest
      · split at hq
        · obtain ⟨ai, -, hin⟩ := List.mem_flatMap.mp hq
          obtain ⟨si, -, hin2⟩ := List.mem_flatMap.mp hin
          dsimp only at hin2
          split at hin2
          · split at hin2
            · rw [List.mem_singleton] at hin2
              subst hin2
              refine ⟨rfl, ?_, rfl, ?_⟩
              · assumption
              · rfl
            · simp at hin2
          · simp at hin2
        · simp at hq
      · exact ih (mi + 1) (nextMonthD cur) a hrest
    · simp at ha

theorem replayDelta_deposit {a : Activity} (ht : a.activityType = "DEPOSIT")
    (hq : 0 ≤ a.quantity) : 0 ≤ replayDelta a := by
  unfold replayDelta
  rw [ht, if_neg (by decide : ¬("DEPOSIT" : String) = "SELL"),
    if_neg (by decide : ¬("DEPOSIT" : String) = "DIVIDEND")]
  exact hq

theorem replayPos_nonneg_of_zero_deltas (l : List Activity) (k : PosKey)
    (h : ∀ a ∈ l, replayDelta a = 0) : 0 ≤ replayPos l k :=
  replayPos_nonneg_of_deltas l k (fun a ha => le_of_eq (h a ha).symm)

/-- Prefix-replay nonnegativity for a four-segment activity list: a segment
of nonnegative deltas, a trade segment whose prefixes replay nonnegatively,
and a final segment of zero deltas. -/
theorem replay_prefix_concat (DC T V : List Activity)
    (hDC : ∀ a ∈ DC, 0 ≤ replayDelta a)
    (hT : ∀ l₁ l₂, T = l₁ ++ l₂ → ∀ k, 0 ≤ replayPos l₁ k)
    (hV : ∀ a ∈ V, replayDelta a = 0) :
    ∀ l₁ l₂, DC ++ (T ++ V) = l₁ ++ l₂ → ∀ k, 0 ≤ replayPos l₁ k := by
  intro l₁ l₂ h k
  rcases List.append_eq_append_iff.mp h with ⟨a', hl₁, hb⟩ | ⟨c', hA, -⟩
  · subst hl₁
    rw [replayPos_append]
    have h1 : 0 ≤ replayPos DC k := replayPos_nonneg_of_deltas DC k hDC
    have h2 : 0 ≤ replayPos a' k := by
      rcases List.append_eq_append_iff.mp hb with ⟨a'', ha', hV'⟩ | ⟨c', hT', -⟩
      · subst ha'
        rw [replayPos_append]
        have h3 : 0 ≤ replayPos T k := hT T [] (List.append_nil T).symm k
        have h4 : 0 ≤ replayPos a'' k :=
          replayPos_nonneg_of_zero_deltas a'' k
            (fun a ha => hV a (hV' ▸ List.mem_append_left _ ha))
        linarith
      · exact hT a' c' hT' k
    linarith
  · apply replayPos_nonneg_of_deltas
    intro a ha
    exact hDC a (hA ▸ List.mem_append_left c' ha)

/-- Claim C1, amended: replaying the generated activities in GENERATION order
(the order the script builds and inserts them) keeps every (account, symbol)
replay position non-negative at every prefix.  (Chronological replay sorted
by date does not have this property — see the counterexample — because trade
dates are drawn independently of the position bookkeeping.) -/
theorem trading_replay_generation_order_nonneg
    (accountMap : String → Option ℕ) (daysBack : ℕ) (today : Date)
    (contribFuel divFuel : ℕ) (o : TradingOracle) (l₁ l₂ : List Activity)
    (h : seed_trading_activities accountMap daysBack today contribFuel divFuel o
      = l₁ ++ l₂) (k : PosKey) : 0 ≤ replayPos l₁ k := by
  unfold seed_trading_activities at h
  dsimp only at h
  rw [List.append_assoc] at h
  refine replay_prefix_concat _ _ _ ?_ ?_ ?_ l₁ l₂ h k
  · intro a ha
    rcases List.mem_append.mp ha with hd | hc
    · rcases List.mem_cons.mp hd with rfl | hd'
      · exact replayDelta_deposit (depositActivity_fields _ _ _ _).1
          (depositActivity_fields _ _ _ _).2
      · rcases List.mem_cons.mp hd' with rfl | h0
        · exact replayDelta_deposit (depositActivity_fields _ _ _ _).1
            (depositActivity_fields _ _ _ _).2
        · simp at h0
    · obtain ⟨ht, hq⟩ := contribLoop_deposits _ _ _ _ _ _ a hc
      exact replayDelta_deposit ht hq
  · intro l₁' l₂' heq k'
    have hz : ∀ q : PosKey, (0 : ℤ) ≤ (fun _ => (0 : ℤ)) q := fun _ => le_refl 0
    have := tradesLoopAux_prefix_nonneg _ o.trade (daysBack / 10) 0
      (fun _ => (0 : ℤ)) hz l₁' l₂' heq k'
    simpa using this
  · intro a ha
    exact (dividendLoop_spec _ _ _ _ _ _ a ha).2.2.2

/-- Account map of a seeded demo store: the five catalog accounts with ids
1 to 5. -/
def demoAccountMap : String → Option ℕ := fun n =>
  if n = "Primary Checking" then some 1
  else if n = "Savings Account" then some 2
  else if n = "Credit Card" then some 3
  else if n = "Brokerage Account" then some 4
  else if n = "Roth IRA" then some 5
  else none

/-- Trade draws: first a BUY of 10 AAPL shares dated today, then SELLs of 5
shares dated at the window start. -/
def c1TradeDraws : ℕ → TradeDraw := fun i =>
  if i = 0 then ⟨0, 0, 0, 0, 0, 0, 9, 0, 0, 0⟩ else ⟨20, 0, 0, 0, 0, 1, 0, 0, 4, 0⟩

/-- The draw oracle of the chronological-replay counterexample run. -/
def c1Oracle : TradingOracle := ⟨fun _ => ⟨0, 0⟩, c1TradeDraws, fun _ _ _ => 0⟩

/-- A concrete 20-day generation run: today 2026-01-20, one BUY dated today
followed by one SELL dated 2025-12-31. -/
def c1Acts : List Activity :=
  seed_trading_activities demoAccountMap 20 ⟨2026, 1, 20⟩ 2 2 c1Oracle

theorem trading_replay_generation_order_nonneg_witness :
    0 ≤ replayPos c1Acts ((some 4 : Option ℕ), "AAPL") :=
  trading_replay_generation_order_nonneg demoAccountMap 20 ⟨2026, 1, 20⟩ 2 2
    c1Oracle c1Acts [] (List.append_nil _).symm _

theorem dateLe_total (a b : Date) : dateLe a b = true ∨ dateLe b a = true := by
  unfold dateLe
  simp only [Bool.or_eq_true, Bool.and_eq_true, decide_eq_true_eq]
  omega

theorem dateLe_trans {a b c : Date} (hab : dateLe a b = true)
    (hbc : dateLe b c = true) : dateLe a c = true := by
  unfold dateLe at *
  simp only [Bool.or_eq_true, Bool.and_eq_true, decide_eq_true_eq] at *
  omega

instance : IsTotal Activity (fun a b => dateLe a.date b.date = true) :=
  ⟨fun a b => dateLe_total a.date b.date⟩

instance : IsTrans Activity (fun a b => dateLe a.date b.date = true) :=
  ⟨fun _ _ _ => dateLe_trans⟩

set_option maxRecDepth 8000 in
/-- Claim C1, counterexample: sorting the concrete run `c1Acts` by date (a
stable chronological order) and replaying it, the prefix ending at the SELL
dated 2025-12-31 drives the brokerage AAPL position to −5: the BUY that
funded the sale is dated three weeks later. -/
theorem trading_chronological_replay_negative :
    (sortByDate c1Acts).Perm c1Acts ∧
    List.Sorted (fun a b => dateLe a.date b.date = true) (sortByDate c1Acts) ∧
    replayPos ((sortByDate c1Acts).take 4) ((some 4 : Option ℕ), "AAPL") < 0 := by
  refine ⟨List.perm_insertionSort _ _, List.sorted_insertionSort _ _, ?_⟩
  with_unfolding_all decide

/-- Claim C4, amended: every activity the dividend pass emits is a DIVIDEND
for a pair whose FINAL tracked position (the dictionary left by the trade
loop, regardless of the dividend's date) is strictly positive, its quantity
is exactly that final position, and it never changes any position (replay
delta 0).  The position as of the dividend's own date can be zero — see the
counterexample. -/
theorem dividend_requires_final_position (ctx : TradeCtx) (pos : Positions)
    (draws : ℕ → ℕ → ℕ → ℕ) (fuel mi : ℕ) (cur : Date) :
    ∀ a ∈ dividendLoop ctx pos draws fuel mi cur,
      a.activityType = "DIVIDEND" ∧ 0 < pos (a.accountId, a.symbol) ∧
      a.quantity = ((pos (a.accountId, a.symbol) : ℤ) : ℚ) ∧ replayDelta a = 0 :=
  dividendLoop_spec ctx pos draws fuel mi cur

/-- A final positions dictionary holding 20 AAPL shares in the brokerage. -/
def divTestPos : Positions :=
  fun k => if k = ((some 4 : Option ℕ), "AAPL") then 20 else 0

/-- The dividend pass of a concrete run, starting 2025-12-31 (a dividend
month). -/
def divLoopOut : List Activity :=
  dividendLoop tradeCtx20 divTestPos (fun _ _ _ => 0) 2 0 ⟨2025, 12, 31⟩

/-- Its single emitted dividend. -/
def divLoopAct : Activity := divLoopOut.headD defaultActivity

set_option maxRecDepth 8000 in
theorem dividend_requires_final_position_witness :
    divLoopAct.activityType = "DIVIDEND" ∧
    0 < divTestPos (divLoopAct.accountId, divLoopAct.symbol) ∧
    divLoopAct.quantity = ((divTestPos (divLoopAct.accountId, divLoopAct.symbol) : ℤ) : ℚ) ∧
    replayDelta divLoopAct = 0 :=
  dividend_requires_final_position tradeCtx20 divTestPos (fun _ _ _ => 0) 2 0
    ⟨2025, 12, 31⟩ divLoopAct
    (headD_mem_of_ne_nil defaultActivity (by with_unfolding_all decide))

/-- Trade draws that are all BUYs of 10 AAPL shares dated today. -/
def c4TradeDraws : ℕ → TradeDraw := fun _ => ⟨0, 0, 0, 0, 0, 0, 9, 0, 0, 0⟩

/-- The draw oracle of the dividend-date counterexample run. -/
def c4Oracle : TradingOracle := ⟨fun _ => ⟨0, 0⟩, c4TradeDraws, fun _ _ _ => 0⟩

/-- A concrete 20-day run whose only trades are BUYs dated today
(2026-01-20), with a quarterly dividend emitted for 2025-12-31. -/
def c4Acts : List Activity :=
  seed_trading_activities demoAccountMap 20 ⟨2026, 1, 20⟩ 2 2 c4Oracle

/-- The dividend record of that run. -/
def c4DivAct : Activity :=
  (c4Acts.filter (fun a => a.activityType = "DIVIDEND")).headD defaultActivity

set_option maxRecDepth 8000 in
/-- Claim C4, counterexample: the run `c4Acts` emits a DIVIDEND dated
2025-12-31 for the brokerage AAPL pair although the position held as of that
date is 0 (the only BUYs are dated 2026-01-20): dividends are sized by the
final tracked position, not the position at their date. -/
theorem dividend_without_position_at_date :
    c4DivAct ∈ c4Acts ∧ c4DivAct.activityType = "DIVIDEND" ∧
    heldAsOf c4Acts c4DivAct.date (c4DivAct.accountId, c4DivAct.symbol) = 0 ∧
    ¬(0 < heldAsOf c4Acts c4DivAct.date (c4DivAct.accountId, c4DivAct.symbol)) := by
  refine ⟨List.mem_of_mem_filter
    (headD_mem_of_ne_nil defaultActivity (by with_unfolding_all decide)), ?_, ?_, ?_⟩
  · with_unfolding_all decide
  · with_unfolding_all decide
  · with_unfolding_all decide

/-! ## Salary schedule: base monotonicity and deduction locality (claim C7) -/

/-- A yearly raise never decreases the monthly base. -/
theorem raise_lower {monthly : ℤ} (h0 : 0 ≤ monthly) (u : ℚ) :
    monthly ≤ pyInt ((monthly : ℚ) * (1 + pyUniform 2 5 u / 100)) := by
  have hp2 := le_pyUniform 2 5 u (by norm_num)
  have hp5 := pyUniform_le 2 5 u (by norm_num)
  have h0' : (0 : ℚ) ≤ (monthly : ℚ) := by exact_mod_cast h0
  apply le_pyInt
  · nlinarith
  · nlinarith

/-- A deduction keeps the emitted amount positive and strictly below the
base, for any base of at least 100 cents. -/
theorem ded_bounds {monthly : ℤ} (h100 : 100 ≤ monthly) (u : ℚ) :
    0 < pyInt ((monthly : ℚ) * (1 - pyUniform 1 5 u / 100)) ∧
    pyInt ((monthly : ℚ) * (1 - pyUniform 1 5 u / 100)) < monthly := by
  have hp1 := le_pyUniform 1 5 u (by norm_num)
  have hp5 := pyUniform_le 1 5 u (by norm_num)
  have h100' : (100 : ℚ) ≤ (monthly : ℚ) := by exact_mod_cast h100
  have hq0 : (0 : ℚ) ≤ (monthly : ℚ) * (1 - pyUniform 1 5 u / 100) := by nlinarith
  constructor
  · have h1 : (1 : ℤ) ≤ pyInt ((monthly : ℚ) * (1 - pyUniform 1 5 u / 100)) := by
      apply le_pyInt hq0
      nlinarith
    omega
  · apply pyInt_lt hq0
    nlinarith

theorem mem_if_singleton {α : Type _} {x a : α} {c : Prop} [Decidable c] :
    x ∈ (if c then [a] else []) ↔ c ∧ x = a := by
  split
  · simp [*]
  · simp [*]

/-- Every salary-schedule entry has a positive amount and a base of at least
100; a monthly (non-bonus) entry's amount equals its base exactly when no
deduction fired, and is strictly below it (with the relabelled description)
when one did. -/
theorem salaryLoopG_entries (draws : ℕ → SalaryDraw) (endD : Date) :
    ∀ (fuel i : ℕ) (cur : Date) (curYear monthly : ℤ), 100 ≤ monthly →
      ∀ e ∈ salaryLoopG draws endD fuel i cur curYear monthly,
        0 < e.amount ∧ 100 ≤ e.base ∧
        (e.isBonus = false →
          (e.amount = e.base ∧ e.desc = "Salary Deposit") ∨
          (e.amount < e.base ∧ e.desc = "Salary Deposit (after deductions)")) := by
  intro fuel
  induction fuel with
  | zero =>
    intro i cur curYear monthly h e he
    simp [salaryLoopG] at he
  | succ fuel ih =>
    intro i cur curYear monthly h100 e he
    unfold salaryLoopG at he
    split at he
    · dsimp only at he
      have h100' : 100 ≤ (if curYear < cur.y then
          pyInt ((monthly : ℚ) * (1 + pyUniform 2 5 (draws i).raiseU / 100))
        else monthly) := by
        split
        · exact le_trans h100 (raise_lower (by omega) _)
        · exact h100
      rcases List.mem_cons.mp he with rfl | he2
      · dsimp only
        by_cases hded : unit01 (draws i).dedRoll < 1 / 10
        · rw [if_pos hded, if_pos hded]
          exact ⟨(ded_bounds h100' _).1, h100',
            fun _ => Or.inr ⟨(ded_bounds h100' _).2, rfl⟩⟩
        · rw [if_neg hded, if_neg hded]
          exact ⟨by omega, h100', fun _ => Or.inl ⟨rfl, rfl⟩⟩
      · rcases List.mem_append.mp he2 with hb | hr
        · rw [mem_if_singleton] at hb
          obtain ⟨hbpos, rfl⟩ := hb
          refine ⟨hbpos, h100', ?_⟩
          intro hfalse
          simp at hfalse
        · exact ih (i + 1) (nextMonthD cur) _ _ h100' e hr
    · simp at he

/-- Claim-side relation between consecutive monthly salary events: the
running base never decreases, is unchanged within a calendar year, and is
multiplied by one truncated 2–5% raise when the year changes. -/
def salaryBaseStep (a b : SalEntry) : Prop :=
  a.base ≤ b.base ∧ (a.date.y = b.date.y → a.base = b.base) ∧
  (a.date.y ≠ b.date.y →
    ∃ p : ℚ, 2 ≤ p ∧ p ≤ 5 ∧ b.base = pyInt ((a.base : ℚ) * (1 + p / 100)))

theorem filter_bonus_if (c : Prop) [Decidable c] (b : SalEntry)
    (hb : b.isBonus = true) :
    (if c then [b] else []).filter (fun e => !e.isBonus) = [] := by
  split
  · simp [List.filter_cons, hb]
  · rfl

/-- Structure of the monthly (non-bonus) salary events: the head is dated at
the current scan date with the post-raise base, and consecutive events are
related by `salaryBaseStep`. -/
theorem salaryLoopG_chain (draws : ℕ → SalaryDraw) (endD : Date) :
    ∀ (fuel i : ℕ) (cur : Date) (curYear monthly : ℤ),
      curYear ≤ cur.y → 0 ≤ monthly →
      ((salaryLoopG draws endD fuel i cur curYear monthly).filter
          (fun e => !e.isBonus) = [] ∨
        ∃ e tail, (salaryLoopG draws endD fuel i cur curYear monthly).filter
            (fun e => !e.isBonus) = e :: tail ∧
          e.date = cur ∧
          e.base = (if curYear < cur.y then
              pyInt ((monthly : ℚ) * (1 + pyUniform 2 5 (draws i).raiseU / 100))
            else monthly) ∧
          List.Chain' salaryBaseStep (e :: tail)) := by
  intro fuel
  induction fuel with
  | zero => intro i cur curYear monthly _ _; left; rfl
  | succ fuel ih =>
    intro i cur curYear monthly hy h0
    unfold salaryLoopG
    split
    · dsimp only
      right
      rw [List.cons_append, List.filter_cons_of_pos rfl, List.filter_append,
        filter_bonus_if _ _ rfl, List.nil_append]
      have h0' : 0 ≤ (if curYear < cur.y then
          pyInt ((monthly : ℚ) * (1 + pyUniform 2 5 (draws i).raiseU / 100))
        else monthly) := by
        split
        · exact le_trans h0 (raise_lower h0 _)
        · exact h0
      have hy' : (if curYear < cur.y then cur.y else curYear) ≤ (nextMonthD cur).y := by
        unfold nextMonthD
        split <;> split <;> dsimp only <;> omega
      rcases ih (i + 1) (nextMonthD cur) _ _ hy' h0' with hnil | ⟨e₁, tail, hms, hd₁, hb₁, hch⟩
      · rw [hnil]
        exact ⟨_, _, rfl, rfl, rfl, List.chain'_singleton _⟩
      · rw [hms]
        refine ⟨_, _, rfl, rfl, rfl, ?_⟩
        rw [List.chain'_cons]
        refine ⟨?_, hch⟩
        have hcy' : (if curYear < cur.y then cur.y else curYear) = cur.y := by
          split <;> omega
        by_cases hm : cur.m = 12
        · have hny : (nextMonthD cur).y = cur.y + 1 := by
            unfold nextMonthD
            rw [if_pos hm]
          have hcond : (if curYear < cur.y then cur.y else curYear) < (nextMonthD cur).y := by
            omega
          rw [if_pos hcond] at hb₁
          refine ⟨?_, ?_, ?_⟩
          · dsimp only
            rw [hb₁]
            exact raise_lower h0' _
          · intro hsame
            dsimp only at hsame
            rw [hd₁, hny] at hsame
            omega
          · intro _
            exact ⟨pyUniform 2 5 (draws (i + 1)).raiseU,
              le_pyUniform 2 5 _ (by norm_num), pyUniform_le 2 5 _ (by norm_num),
              hb₁⟩
        · have hny : (nextMonthD cur).y = cur.y := by
            unfold nextMonthD
            rw [if_neg hm]
          have hcond : ¬((if curYear < cur.y then cur.y else curYear) < (nextMonthD cur).y) := by
            omega
          rw [if_neg hcond] at hb₁
          refine ⟨?_, ?_, ?_⟩
          · dsimp only
            rw [hb₁]
          · intro _
            dsimp only
            rw [hb₁]
          · intro hdiff
            dsimp only at hdiff
            rw [hd₁, hny] at hdiff
            omega
    · left; rfl

/-- Claim C7: in the salary schedule, the running monthly base starts at the
annual base integer-divided by 12 (708333 cents), consecutive monthly events
keep the base unchanged within a calendar year and apply exactly one
truncated uniform 2–5% raise when the year changes (so the base is
non-decreasing across the whole schedule), and a month's random deduction
only lowers that month's emitted amount below its base and relabels the
description, never the base carried forward. -/
theorem salary_base_monotone_deduction_local (start endD : Date) (fuel : ℕ)
    (draws : ℕ → SalaryDraw) :
    (∀ e, ((salaryScheduleG start endD fuel draws).filter
        (fun e => !e.isBonus)).head? = some e →
      e.base = Int.fdiv baseAnnualSalary 12 ∧ Int.fdiv baseAnnualSalary 12 = 708333) ∧
    List.Chain' salaryBaseStep
      ((salaryScheduleG start endD fuel draws).filter (fun e => !e.isBonus)) ∧
    (∀ e ∈ salaryScheduleG start endD fuel draws, 0 < e.amount ∧
      (e.isBonus = false →
        (e.amount = e.base ∧ e.desc = "Salary Deposit") ∨
        (e.amount < e.base ∧ e.desc = "Salary Deposit (after deductions)"))) := by
  have hy : start.y ≤ (replaceDay15 start).y := le_of_eq rfl
  have h0 : (0 : ℤ) ≤ Int.fdiv baseAnnualSalary 12 := by decide
  have hch := salaryLoopG_chain draws endD fuel 0 (replaceDay15 start) start.y
    (Int.fdiv baseAnnualSalary 12) hy h0
  refine ⟨?_, ?_, ?_⟩
  · intro e he
    unfold salaryScheduleG at he
    rcases hch with hnil | ⟨e', tail, hms, -, hb, -⟩
    · rw [hnil] at he
      simp at he
    · rw [hms] at he
      rw [List.head?_cons] at he
      injection he with he'
      subst he'
      rw [if_neg (show ¬(start.y < (replaceDay15 start).y) from lt_irrefl start.y)] at hb
      exact ⟨hb, by decide⟩
  · unfold salaryScheduleG
    rcases hch with hnil | ⟨e', tail, hms, -, -, hchain⟩
    · rw [hnil]
      exact List.chain'_nil
    · rw [hms]
      exact hchain
  · intro e he
    unfold salaryScheduleG at he
    have h := salaryLoopG_entries draws endD fuel 0 (replaceDay15 start) start.y
      (Int.fdiv baseAnnualSalary 12) (by decide) e he
    exact ⟨h.1, h.2.2⟩

/-- A concrete salary draw oracle: no deductions, minimal raises and
bonuses. -/
def salaryTestDraws : ℕ → SalaryDraw := fun _ => ⟨0, 1, 0, 0, 0⟩

/-- Inhabitant used to extract elements of concrete salary-entry lists. -/
def defaultSalEntry : SalEntry := ⟨⟨0, 0, 0⟩, 0, "", 0, false⟩

/-- A concrete three-month schedule (2024-01-10 to 2024-03-20). -/
def salaryTestSchedule : List SalEntry :=
  salaryScheduleG ⟨2024, 1, 10⟩ ⟨2024, 3, 20⟩ 4 salaryTestDraws

/-- Its first monthly event. -/
def salaryTestHead : SalEntry :=
  (salaryTestSchedule.filter (fun e => !e.isBonus)).headD defaultSalEntry

set_option maxRecDepth 8000 in
theorem salary_base_monotone_deduction_local_witness :
    salaryTestHead.base = Int.fdiv baseAnnualSalary 12 ∧
    Int.fdiv baseAnnualSalary 12 = 708333 ∧ 0 < salaryTestHead.amount := by
  have h := salary_base_monotone_deduction_local ⟨2024, 1, 10⟩ ⟨2024, 3, 20⟩ 4
    salaryTestDraws
  have hne : (salaryTestSchedule.filter (fun e => !e.isBonus)) ≠ [] := by
    with_unfolding_all decide
  have hh : (salaryTestSchedule.filter (fun e => !e.isBonus)).head?
      = some salaryTestHead := by
    cases hc : (salaryTestSchedule.filter (fun e => !e.isBonus)) with
    | nil => exact absurd hc hne
    | cons a t =>
      unfold salaryTestHead
      rw [hc]
      rfl
  obtain ⟨hb, h708⟩ := h.1 salaryTestHead hh
  have hmem : salaryTestHead ∈ salaryTestSchedule :=
    List.mem_of_mem_filter (headD_mem_of_ne_nil defaultSalEntry hne)
  exact ⟨hb, h708, (h.2.2 salaryTestHead hmem).1⟩

/-! ## Payer/payee versus amount sign (claim C8) -/

theorem other_income_wf : ∀ t ∈ OTHER_INCOME, 0 < t.2.1 ∧ t.2.2.2 ≠ "" := by decide

/-- Claim C8: every record `seed_expenses` writes to the expense store —
synthetic expenses, salary credits and other income alike — has exactly one
of payer/payee populated (with a non-empty string), matching the amount's
sign: negative amounts carry a payee only, positive amounts a payer only,
and no record has amount zero. -/
theorem payer_payee_matches_sign (ctx : ExpenseCtx) (n fuel : ℕ)
    (o : ExpenseOracle) :
    ∀ rec ∈ seed_expenses ctx n fuel o,
      ((rec.amountCents < 0 ∧ rec.payer = none ∧
          ∃ v, rec.payee = some v ∧ v ≠ "") ∨
        (0 < rec.amountCents ∧ rec.payee = none ∧
          ∃ v, rec.payer = some v ∧ v ≠ "")) ∧
      rec.amountCents ≠ 0 := by
  intro rec hrec
  unfold seed_expenses at hrec
  rcases List.mem_append.mp hrec with h12 | h3
  · rcases List.mem_append.mp h12 with h1 | h2
    · -- synthetic expense
      obtain ⟨i, -, hfi⟩ := List.mem_filterMap.mp h1
      obtain ⟨rec', c, ts, t, hsome, -, -, -, -, -, -, hamt, -, hpayer, hpayee,
        hven, hlo, -, hposmin⟩ := syntheticExpense_spec ctx (o.expense i)
      rw [hsome] at hfi
      injection hfi with hfi'
      subst hfi'
      have hpos : 0 < ((pyRandintN t.2.1 t.2.2 (o.expense i).amtRaw : ℕ) : ℤ) := by
        exact_mod_cast lt_of_lt_of_le hposmin hlo
      refine ⟨Or.inl ⟨by omega, hpayer, vendorOf t.1, hpayee, hven⟩, by omega⟩
    · -- salary record
      obtain ⟨tr, htr, hrec'⟩ := List.mem_map.mp h2
      subst hrec'
      unfold generate_salary_schedule at htr
      obtain ⟨e, he, htr'⟩ := List.mem_map.mp htr
      subst htr'
      have hent := salaryLoopG_entries o.salary ctx.today fuel 0
        (replaceDay15 (subDays ctx.today (ctx.daysBack : ℤ)))
        (subDays ctx.today (ctx.daysBack : ℤ)).y (Int.fdiv baseAnnualSalary 12)
        (by decide) e he
      refine ⟨Or.inr ⟨hent.1, rfl, "Employer Inc.", rfl, by decide⟩, ?_⟩
      have := hent.1
      show e.amount ≠ 0
      omega
  · -- other income
    obtain ⟨i, -, hrec'⟩ := List.mem_map.mp h3
    subst hrec'
    have htmem : pyChoice OTHER_INCOME ("", 0, 0, "") (o.otherIncome i).pickRaw
        ∈ OTHER_INCOME := pyChoice_mem _ _ (by decide)
    obtain ⟨hmin, hpayer⟩ := other_income_wf _ htmem
    have hpos : 0 < ((pyRandintN
        (pyChoice OTHER_INCOME ("", 0, 0, "") (o.otherIncome i).pickRaw).2.1
        (pyChoice OTHER_INCOME ("", 0, 0, "") (o.otherIncome i).pickRaw).2.2.1
        (o.otherIncome i).amtRaw : ℕ) : ℤ) := by
      exact_mod_cast lt_of_lt_of_le hmin (le_pyRandintN _ _ _)
    exact ⟨Or.inr ⟨hpos, rfl, _, rfl, hpayer⟩, ne_of_gt hpos⟩

/-- Inhabitant used to extract elements of concrete expense-record lists. -/
def defaultExpenseRecord : ExpenseRecord :=
  ⟨⟨0, 0, 0⟩, 0, "", "", none, none, none, none, none⟩

/-- A concrete draw oracle for the whole of `seed_expenses`. -/
def expenseTestOracle : ExpenseOracle :=
  ⟨plainExpenseDraws, salaryTestDraws, fun _ => ⟨0, 0, 0⟩⟩

/-- A concrete one-record run of `seed_expenses` (one-day window). -/
def expenseTestRun : List ExpenseRecord :=
  seed_expenses oneDayCtx 1 1 expenseTestOracle

/-- Its single record. -/
def expenseTestRec : ExpenseRecord := expenseTestRun.headD defaultExpenseRecord

set_option maxRecDepth 8000 in
theorem payer_payee_matches_sign_witness :
    ((expenseTestRec.amountCents < 0 ∧ expenseTestRec.payer = none ∧
        ∃ v, expenseTestRec.payee = some v ∧ v ≠ "") ∨
      (0 < expenseTestRec.amountCents ∧ expenseTestRec.payee = none ∧
        ∃ v, expenseTestRec.payer = some v ∧ v ≠ "")) ∧
    expenseTestRec.amountCents ≠ 0 :=
  payer_payee_matches_sign oneDayCtx 1 1 expenseTestOracle expenseTestRec
    (headD_mem_of_ne_nil defaultExpenseRecord (by with_unfolding_all decide))
